import Mathlib

/-!
# Verification of the catcat tower-defense simulation core

This file is a shallow embedding in Lean 4 of the gameplay core of
`src/src/main.cpp` (the `Game` class), together with theorems settling a
list of claims about that code.

Modeling conventions:

* C++ `float` arithmetic is modeled exactly over `ℚ`.  The single genuinely
  irrational operation, `std::sqrt`, is modeled by the computable
  approximation `ratSqrt` (integer square root of the scaled numerator);
  every concrete input used in a theorem below is chosen so that the values
  flowing through `ratSqrt` are perfect squares, where `ratSqrt` is exact.
* C++ `int` is modeled by `Int`.  `%` on `Int` in Lean is the Euclidean
  remainder; at every site where the source applies `%` the dividend is
  non-negative in all reachable states, where the two semantics coincide
  (noted at each site).  `static_cast<int>` of a float is truncation toward
  zero, modeled by `ratTrunc`.
* The Mersenne-twister RNG (`rng_`) is modeled by oracle streams stored in
  the state: `randQ`/`randZ` give the value produced by the n-th draw of
  `uniform_real_distribution`/`uniform_int_distribution`, and
  `shufPos`/`shufNat` give the permutation produced by the n-th call of
  `std::shuffle`.  `rctr` is the draw counter.  Theorems quantify over all
  streams, hence over all RNG behaviors.
* Purely presentational state with no effect on gameplay is omitted:
  beam traces, shockwave rings, area highlights (`beams_`, `shockwaves_`,
  `area_highlights_`), colors/glyphs, and the audio calls.  Hit-markers
  (`hit_splats_`) are kept because the damage rule of the spec mentions
  them.  Rendering (`Render*`), input decoding, and the shop display
  (`SortedDefs`, `TypeKey`, `PadRight`) are likewise out of scope.
* The 2-D boolean masks of the source (`path_mask_`, the occupancy masks)
  are modeled as membership predicates with identical values on all
  in-board cells; the source only ever queries them after an explicit
  bounds check, and marks only in-board cells.
-/

/- Batteries marks the ℚ field operations `@[irreducible]`, which blocks
`decide` on concrete rational computations; restore default transparency
for this file (kernel checking is unaffected by transparency). -/
set_option allowUnsafeReducibility true
attribute [local semireducible] Rat.add Rat.mul Rat.sub Rat.inv Rat.ofScientific
set_option maxRecDepth 1000000
set_option maxHeartbeats 2000000

namespace CatCat

/-! ## Basic data (main.cpp lines 36-170) -/

def kBoardWidth : Int := 48
def kBoardHeight : Int := 28
def kTickSeconds : ℚ := 16 / 1000
def kStartingKibbles : Int := 90
def kSpeedFactor : ℚ := 13 / 10
def kFastForwardMultiplier : ℚ := 5
def kStartingLives : Int := 9
def kCatSleepBase : ℚ := 1 / 2
def kCatSleepUpgrade : ℚ := 1
def kCatSleepCap : ℚ := 5
def kGalacticVoidChance : ℚ := 1 / 5
def kGalacticVoidBackstep : ℚ := 6
def kKittyJumpBonusRange : ℚ := 3 / 2

/-- Rational model of `std::cos(0.6F)` (≈ 0.8253356), the Galacticat cone
threshold.  Any fixed constant in (0,1) plays the same structural role. -/
def kGalacticConeCos : ℚ := 8253356 / 10000000

structure Position where
  x : Int
  y : Int
deriving DecidableEq, Inhabited, Repr

structure Vec2 where
  x : ℚ
  y : ℚ
deriving DecidableEq, Inhabited

def distanceSquared (a : Vec2) (b : Position) : ℚ :=
  (a.x - (b.x : ℚ)) * (a.x - (b.x : ℚ)) + (a.y - (b.y : ℚ)) * (a.y - (b.y : ℚ))

/-- Binary-search integer square root (fuel-recursive so that it reduces
definitionally): the largest `k` with `k * k ≤ n`, for `n < 2 ^ 64`. -/
def isqrtAux (n : Nat) : Nat → Nat → Nat → Nat
  | 0, lo, _ => lo
  | fuel + 1, lo, hi =>
    if hi ≤ lo + 1 then lo
    else
      let mid := (lo + hi) / 2
      if mid * mid ≤ n then isqrtAux n fuel mid hi else isqrtAux n fuel lo mid

def isqrt (n : Nat) : Nat := isqrtAux n 64 0 (n + 1)

/-- Computable model of `std::sqrt` on floats: integer square root of the
scaled numerator.  Exact whenever the argument is the square of a rational
whose denominator divides the argument's; in particular exact on perfect
integer squares. -/
def ratSqrt (q : ℚ) : ℚ :=
  if q ≤ 0 then 0 else (isqrt (q.num.toNat * q.den) : ℚ) / (q.den : ℚ)

/-- `static_cast<int>` of a float value: truncation toward zero. -/
def ratTrunc (q : ℚ) : Int := if 0 ≤ q then ⌊q⌋ else ⌈q⌉

/-- `(x > 0) - (x < 0)` on ints, as used by the source for directions. -/
def sgn (n : Int) : Int := if 0 < n then 1 else if n < 0 then -1 else 0

/-- `(x > 0) - (x < 0)` on floats. -/
def qsgn (q : ℚ) : Int := if 0 < q then 1 else if q < 0 then -1 else 0

inductive EnemyType where
  | Mouse
  | Rat
  | BigRat
  | Dog
deriving DecidableEq, Inhabited, Repr

structure Enemy where
  path_progress : ℚ
  speed : ℚ
  hp : Int
  max_hp : Int
  lane_offset : Int
  type : EnemyType
  sleep_timer : ℚ
deriving DecidableEq, Inhabited

inductive TowerType where
  | Default
  | Fat
  | Kitty
  | Thunder
  | Catatonic
  | Galactic
deriving DecidableEq, Inhabited, Repr

structure Tower where
  pos : Position
  damage : Int
  range : ℚ
  cooldown : ℚ
  fire_rate : ℚ
  type : TowerType
  size : Int
  upgraded : Bool
deriving DecidableEq, Inhabited

structure HitSplat where
  pos : Position
  time_left : ℚ
deriving DecidableEq, Inhabited

structure Projectile where
  x : ℚ
  y : ℚ
  target : Position
  speed : ℚ
  damage : Int
deriving DecidableEq, Inhabited

structure HeldTower where
  tower : Tower
  original : Position
deriving DecidableEq, Inhabited

structure TowerDef where
  type : TowerType
  cost : Int
  damage : Int
  range : ℚ
  fire_rate : ℚ
  show_range : Bool
  size : Int
deriving DecidableEq, Inhabited

structure MapDef where
  anchors : List Position
  path_width : Int
deriving DecidableEq, Inhabited

/-- `GetDef` (main.cpp 154-170).  The display name is presentational and
omitted. -/
def getDef : TowerType → TowerDef
  | TowerType.Default => ⟨TowerType.Default, 35, 3, 45 / 10, 85 / 100, true, 1⟩
  | TowerType.Fat => ⟨TowerType.Fat, 55, 4, 24 / 10, 14 / 10, true, 2⟩
  | TowerType.Kitty => ⟨TowerType.Kitty, 100, 3, 3, 1, true, 1⟩
  | TowerType.Thunder => ⟨TowerType.Thunder, 350, 6, 999, 26 / 10, false, 1⟩
  | TowerType.Catatonic => ⟨TowerType.Catatonic, 500, 2, 32 / 10, 22 / 10, true, 1⟩
  | TowerType.Galactic => ⟨TowerType.Galactic, 1000, 9, 75 / 10, 25 / 10, false, 1⟩

/-- `BuildMaps` (main.cpp 1654-1751), colors dropped.  Numeric anchors are
the source expressions evaluated at `kBoardWidth = 48`, `kBoardHeight = 28`. -/
def builtMaps : List MapDef :=
  [ ⟨[⟨0, 14⟩, ⟨12, 14⟩, ⟨12, 4⟩, ⟨30, 4⟩, ⟨30, 23⟩, ⟨47, 23⟩], 1⟩,
    ⟨[⟨0, 3⟩, ⟨10, 3⟩, ⟨10, 12⟩, ⟨25, 12⟩, ⟨25, 22⟩, ⟨47, 22⟩], 2⟩,
    ⟨[⟨0, 24⟩, ⟨15, 24⟩, ⟨15, 6⟩, ⟨32, 6⟩, ⟨32, 14⟩, ⟨47, 14⟩], 1⟩,
    ⟨[⟨0, 14⟩, ⟨8, 14⟩, ⟨8, 6⟩, ⟨20, 6⟩, ⟨20, 20⟩, ⟨35, 20⟩, ⟨35, 5⟩, ⟨47, 5⟩], 3⟩,
    ⟨[⟨0, 8⟩, ⟨14, 8⟩, ⟨14, 22⟩, ⟨28, 22⟩, ⟨28, 6⟩, ⟨47, 6⟩], 2⟩,
    ⟨[⟨0, 14⟩, ⟨10, 14⟩, ⟨10, 3⟩, ⟨20, 3⟩, ⟨20, 24⟩, ⟨40, 24⟩, ⟨40, 8⟩, ⟨47, 8⟩], 2⟩,
    ⟨[⟨0, 23⟩, ⟨18, 23⟩, ⟨18, 5⟩, ⟨46, 5⟩, ⟨46, 14⟩], 1⟩,
    ⟨[⟨0, 4⟩, ⟨8, 4⟩, ⟨8, 24⟩, ⟨24, 24⟩, ⟨24, 4⟩, ⟨47, 4⟩], 2⟩,
    ⟨[⟨0, 14⟩, ⟨12, 14⟩, ⟨12, 6⟩, ⟨22, 6⟩, ⟨22, 21⟩, ⟨34, 21⟩, ⟨34, 5⟩, ⟨47, 5⟩], 2⟩,
    ⟨[⟨0, 2⟩, ⟨16, 2⟩, ⟨16, 25⟩, ⟨30, 25⟩, ⟨30, 7⟩, ⟨47, 7⟩], 3⟩ ]

/-! ## Path construction (`BuildPath`, main.cpp 654-688) -/

/-- All integer cells of one axis-aligned segment, endpoints included, in
traversal order (the `for` loops of `BuildPath`). -/
def segmentCells (a b : Position) : List Position :=
  if a.x = b.x then
    let dir : Int := if b.y > a.y then 1 else -1
    (List.range ((b.y - a.y).natAbs + 1)).map fun k => ⟨a.x, a.y + dir * (k : Int)⟩
  else if a.y = b.y then
    let dir : Int := if b.x > a.x then 1 else -1
    (List.range ((b.x - a.x).natAbs + 1)).map fun k => ⟨a.x + dir * (k : Int), a.y⟩
  else []

/-- The ordered center path: anchors walked pairwise. -/
def buildPathFromAnchors (anchors : List Position) : List Position :=
  (anchors.zip anchors.tail).foldl (fun acc ab => acc ++ segmentCells ab.1 ab.2) []

def inBoard (p : Position) : Bool :=
  decide (0 ≤ p.x ∧ p.x < kBoardWidth ∧ 0 ≤ p.y ∧ p.y < kBoardHeight)

/-- All board cells, row-major (the `y` outer / `x` inner double loops of
the source). -/
def boardCells : List Position :=
  ((List.range 28).map fun y => (List.range 48).map fun x =>
    (⟨(x : Int), (y : Int)⟩ : Position)).flatten

/-! ## Game state (the private members of `Game`, main.cpp 2145-2180) -/

structure GameState where
  path : List Position
  /-- Dilation radius of `path_mask_`: the `path_width` of the map the mask
  was last built from (`BuildPath` reads `CurrentMap().path_width`). -/
  path_width : Int
  enemies : List Enemy
  towers : List Tower
  hit_splats : List HitSplat
  projectiles : List Projectile
  held_tower : Option HeldTower
  maps : List MapDef
  cursor : Position
  /-- RNG oracle: value of the n-th `uniform_real_distribution` draw. -/
  randQ : Nat → ℚ
  /-- RNG oracle: value of the n-th `uniform_int_distribution` draw. -/
  randZ : Nat → Int
  /-- RNG oracle: result of the n-th `std::shuffle` on a position list. -/
  shufPos : Nat → List Position → List Position
  /-- RNG oracle: result of the n-th `std::shuffle` on an index list. -/
  shufNat : Nat → List Nat → List Nat
  /-- Number of RNG draws made so far. -/
  rctr : Nat
  selected_type : TowerType
  unlocked_thunder : Bool
  unlocked_fat : Bool
  unlocked_kitty : Bool
  unlocked_catatonic : Bool
  unlocked_galactic : Bool
  view_shop : Bool
  overlay_enabled : Bool
  show_controls : Bool
  auto_waves : Bool
  fast_forward : Bool
  dev_mode : Bool
  map_index : Int
  kibbles : Int
  lives : Int
  wave : Int
  wave_active : Bool
  game_over : Bool
  spawn_remaining : Int
  spawn_cooldown_ms : Int

/-! ## Small queries (main.cpp 1106-1144, 1178-1186) -/

def inRange (center : Vec2) (cell : Position) (range : ℚ) : Bool :=
  decide (distanceSquared center cell ≤ range * range)

def bounty : EnemyType → Int
  | EnemyType.Mouse => 8
  | EnemyType.Rat => 12
  | EnemyType.BigRat => 20
  | EnemyType.Dog => 30

def timeScale (g : GameState) : ℚ :=
  if g.fast_forward then kFastForwardMultiplier else 1

def dtOf (g : GameState) : ℚ := kTickSeconds * timeScale g

/-- `NextCooldown`: returns the new cooldown and the state with the RNG
counter advanced; the stream value models `Rand(-0.14F, 0.14F)`. -/
def nextCooldown (g : GameState) (base_rate : ℚ) : ℚ × GameState :=
  (max (6 / 100) (base_rate / kSpeedFactor + g.randQ g.rctr),
   {g with rctr := g.rctr + 1})

/-- `DifficultyLevel`.  `wave_` ≥ 1 at every call site (it is read only
after `StartWave` has incremented it), where C++ `%` agrees with `%` on
`Int`. -/
def difficultyLevel (g : GameState) : Int :=
  (g.wave - 1) % 10 + 1 + g.map_index * 2

/-- `CurrentMap`: unguarded `maps_[map_index_]` (a negative index would be
UB in the source; `Int.toNat` is the value-level model on the reachable,
non-negative range). -/
def currentMap (g : GameState) : MapDef :=
  g.maps.getD g.map_index.toNat default

def towerCenterAt (p : Position) (size : Int) : Vec2 :=
  ⟨(p.x : ℚ) + ((size : ℚ) - 1) / 2, (p.y : ℚ) + ((size : ℚ) - 1) / 2⟩

def towerCenter (t : Tower) : Vec2 := towerCenterAt t.pos t.size

/-- `BuildPath`: rebuilds the center path and the mask dilation radius from
the current map. -/
def buildPath (g : GameState) : GameState :=
  let m := currentMap g
  {g with path := buildPathFromAnchors m.anchors, path_width := m.path_width}

/-- Membership in `path_mask_`: some path cell within Chebyshev distance
`path_width - 1` (the dilation loops of `BuildPath`).  Agrees with the
source mask on every in-board cell; the source queries the mask only after
a bounds check. -/
def pathMaskIn (path : List Position) (w : Int) (p : Position) : Bool :=
  path.any fun q => decide (|p.x - q.x| ≤ w - 1 ∧ |p.y - q.y| ≤ w - 1)

/-- `OccupiesPath` (main.cpp 1290-1304) over an explicit path and mask
width: any footprint cell off-board or on the path mask. -/
def occupiesPathIn (path : List Position) (w : Int) (p : Position) (size : Int) : Bool :=
  (List.range size.toNat).any fun dy => (List.range size.toNat).any fun dx =>
    let c : Position := ⟨p.x + (dx : Int), p.y + (dy : Int)⟩
    !inBoard c || pathMaskIn path w c

/-- `OccupiesPath` against the state's current mask. -/
def occupiesPath (g : GameState) (p : Position) (size : Int) : Bool :=
  occupiesPathIn g.path g.path_width p size

/-- `OverlapsTower` (main.cpp 1274-1288). -/
def overlapsTower (g : GameState) (p : Position) (size : Int) : Bool :=
  g.towers.any fun t =>
    let tx2 := t.pos.x + t.size - 1
    let ty2 := t.pos.y + t.size - 1
    let px2 := p.x + size - 1
    let py2 := p.y + size - 1
    !(decide (p.x > tx2) || decide (px2 < t.pos.x) ||
      decide (p.y > ty2) || decide (py2 < t.pos.y))

/-- `CatatonicConflict` (main.cpp 1306-1328). -/
def catatonicConflict (g : GameState) (p : Position) (size : Int)
    (ty : TowerType) (range : ℚ) (upgraded : Bool) : Bool :=
  if ty ≠ TowerType.Catatonic then false
  else
    let candidate_range := range + (if upgraded then 8 / 10 else 0)
    let center := towerCenterAt p size
    g.towers.any fun t =>
      if t.type ≠ TowerType.Catatonic then false
      else
        let other := towerCenter t
        let dx := center.x - other.x
        let dy := center.y - other.y
        let max_r := candidate_range + t.range + (if t.upgraded then 8 / 10 else 0)
        decide (dx * dx + dy * dy ≤ max_r * max_r)

/-- `CanPlace` (main.cpp 1330-1346). -/
def canPlace (g : GameState) (p : Position) (size : Int) (ty : TowerType)
    (range : ℚ) (upgraded : Bool) : Bool :=
  if p.x < 0 ∨ p.y < 0 ∨ p.x + size - 1 ≥ kBoardWidth ∨ p.y + size - 1 ≥ kBoardHeight then
    false
  else if occupiesPath g p size then false
  else if overlapsTower g p size then false
  else if catatonicConflict g p size ty range upgraded then false
  else true

/-- `TowerIndexAt` (main.cpp 1348-1358): index of the first tower whose
footprint contains `p`. -/
def towerIndexAtAux (p : Position) : List Tower → Option Nat
  | [] => none
  | t :: rest =>
    if p.x ≥ t.pos.x ∧ p.x ≤ t.pos.x + t.size - 1 ∧
       p.y ≥ t.pos.y ∧ p.y ≤ t.pos.y + t.size - 1 then some 0
    else (towerIndexAtAux p rest).map (· + 1)

def towerIndexAt (g : GameState) (p : Position) : Option Nat :=
  towerIndexAtAux p g.towers

/-! ## Enemies: cells, movement, stats (main.cpp 701-753, 944-983, 1068-1089) -/

/-- `EnemyCell`: floored clamped path index, plus the lane offset rotated
perpendicular to the local direction, clamped to the board. -/
def enemyCell (g : GameState) (e : Enemy) : Position :=
  let n := g.path.length
  let idx : Int := max 0 (min ⌊e.path_progress⌋ ((n : Int) - 1))
  let i := idx.toNat
  let base := g.path.getD i default
  let dxy : Int × Int :=
    if i + 1 < n then
      ((g.path.getD (i + 1) default).x - base.x, (g.path.getD (i + 1) default).y - base.y)
    else if 0 < i then
      (base.x - (g.path.getD (i - 1) default).x, base.y - (g.path.getD (i - 1) default).y)
    else (0, 0)
  let dx := sgn dxy.1
  let dy := sgn dxy.2
  ⟨max 0 (min (base.x + -dy * e.lane_offset) (kBoardWidth - 1)),
   max 0 (min (base.y + dx * e.lane_offset) (kBoardHeight - 1))⟩

/-- Per-enemy movement step of `MoveEnemies`: sleeping units decay their
timer, others advance. -/
def stepEnemy (dt : ℚ) (e : Enemy) : Enemy :=
  if e.sleep_timer > 0 then {e with sleep_timer := max 0 (e.sleep_timer - dt)}
  else {e with path_progress := e.path_progress + e.speed * dt}

/-- Escape check of `MoveEnemies`: hp forced to 0 at the last path index. -/
def escapeStep (endIndex : Int) (e : Enemy) : Enemy :=
  if ⌊e.path_progress⌋ ≥ endIndex then {e with hp := 0} else e

/-- `MoveEnemies` (main.cpp 731-753).  The source interleaves the hp write
and the life deduction in one loop; the hp writes do not feed the life
computation, so the two are split here into a map and a fold over the same
list, in the same order. -/
def moveEnemies (g : GameState) : GameState :=
  let dt := dtOf g
  let moved := g.enemies.map (stepEnemy dt)
  let endIndex : Int := (g.path.length : Int) - 1
  let lives' := moved.foldl
    (fun l e => if ⌊e.path_progress⌋ ≥ endIndex then max 0 (l - 1) else l) g.lives
  {g with enemies := moved.map (escapeStep endIndex), lives := lives'}

/-- `SelectEnemyType` (main.cpp 944-961); the draws are conditional exactly
as the short-circuit `&&` of the source makes them. -/
def selectEnemyType (g : GameState) (diff : Int) : EnemyType × GameState :=
  let mouse_share : ℚ := max (18 / 100) (min ((40 : ℚ) / 100 - (15 / 1000) * (diff : ℚ)) (40 / 100))
  let roll := g.randQ g.rctr
  let g := {g with rctr := g.rctr + 1}
  if roll < mouse_share then (EnemyType.Mouse, g)
  else
    let bigratStep :=
      if diff ≥ 9 then
        let r2 := g.randQ g.rctr
        let g := {g with rctr := g.rctr + 1}
        if r2 < 18 / 100 then (some EnemyType.BigRat, g) else (none, g)
      else (none, g)
    match bigratStep with
    | (some t, g) => (t, g)
    | (none, g) =>
      if g.map_index ≥ 3 ∧ diff ≥ 16 then
        let r3 := g.randQ g.rctr
        let g := {g with rctr := g.rctr + 1}
        if r3 < 8 / 100 then (EnemyType.Dog, g) else (EnemyType.Rat, g)
      else (EnemyType.Rat, g)

/-- `ApplyEnemyStats` (main.cpp 963-983).  `static_cast<int>(diff * 2.5F)`
truncates toward zero; `diff ≥ 1` at every call site, where that equals
`(diff * 5) / 2` on `Int`. -/
def applyEnemyStats (e : Enemy) (diff : Int) : Enemy :=
  let e :=
    match e.type with
    | EnemyType.Mouse =>
        {e with max_hp := 2 + diff * 1,
                speed := ((95 : ℚ) / 100 + (diff : ℚ) * (5 / 100)) * kSpeedFactor}
    | EnemyType.Rat =>
        {e with max_hp := 5 + diff * 5 / 2,
                speed := ((65 : ℚ) / 100 + (diff : ℚ) * (65 / 1000)) * kSpeedFactor}
    | EnemyType.BigRat =>
        {e with max_hp := 15 + diff * 4,
                speed := ((55 : ℚ) / 100 + (diff : ℚ) * (45 / 1000)) * kSpeedFactor}
    | EnemyType.Dog =>
        {e with max_hp := 28 + diff * 6,
                speed := ((9 : ℚ) / 10 + (diff : ℚ) * (55 / 1000)) * kSpeedFactor}
  {e with hp := e.max_hp}

/-- `StartWave` (main.cpp 690-699). -/
def startWave (g : GameState) : GameState :=
  if g.wave_active ∨ g.game_over then g
  else
    let g := {g with wave := g.wave + 1}
    {g with spawn_remaining := 6 + difficultyLevel g * 2,
            spawn_cooldown_ms := 0, wave_active := true}

/-- `SpawnTick` (main.cpp 701-729). -/
def spawnTick (g : GameState) : GameState :=
  if ¬g.wave_active then g
  else if g.spawn_remaining ≤ 0 ∧ g.enemies.isEmpty then g
  else
    let g := {g with spawn_cooldown_ms :=
      g.spawn_cooldown_ms - ratTrunc ((16 : ℚ) * timeScale g)}
    if g.spawn_cooldown_ms > 0 ∨ g.spawn_remaining ≤ 0 then g
    else
      let diff := difficultyLevel g
      let tg := selectEnemyType g diff
      let g := tg.2
      let e0 : Enemy :=
        {path_progress := 0, speed := 1, hp := 1, max_hp := 1,
         lane_offset := 0, type := tg.1, sleep_timer := 0}
      let e1 := applyEnemyStats e0 diff
      let width := max 1 (currentMap g).path_width
      let lg : Int × GameState :=
        if width > 1 then (g.randZ g.rctr, {g with rctr := g.rctr + 1})
        else (0, g)
      let g := lg.2
      let e2 := {e1 with lane_offset := lg.1}
      {g with enemies := g.enemies ++ [e2],
              spawn_remaining := g.spawn_remaining - 1,
              spawn_cooldown_ms := ratTrunc ((600 : ℚ) / kSpeedFactor)}

/-! ## Targeting (main.cpp 755-782) -/

/-- `FindTargetAt`: among live enemies, in range unless the tower is a
Thundercat, the one furthest along the path (first found wins ties, and the
initial best progress is `-1.0F` as in the source). -/
def findTargetAt (g : GameState) (t : Tower) (center : Vec2) : Option Nat :=
  let r := (List.range g.enemies.length).foldl
    (fun (acc : Option Nat × ℚ) i =>
      let e := g.enemies.getD i default
      if e.hp ≤ 0 then acc
      else if t.type ≠ TowerType.Thunder ∧
              distanceSquared center (enemyCell g e) > t.range * t.range then acc
      else if e.path_progress > acc.2 then (some i, e.path_progress) else acc)
    (none, -1)
  r.1

def findTarget (g : GameState) (t : Tower) : Option Nat :=
  findTargetAt g t (towerCenter t)

/-! ## Damage application

Every firing routine of the source runs the same per-enemy block:
`hp -= damage`, then either `kibbles_ += Bounty` (on `hp <= 0`) or a
hit-splat push.  `damagePass` is that loop for a given hit predicate,
split into its three independent effects (new enemy list, kibble gain,
splat list), each computed over the same list in the same order. -/

def damagePass (g : GameState) (hit : Enemy → Bool) (dmg : Int)
    (splat_time : ℚ) : GameState :=
  let enemies' := g.enemies.map fun e => if hit e then {e with hp := e.hp - dmg} else e
  let gained := (g.enemies.filter fun e => hit e && decide (e.hp - dmg ≤ 0)).foldl
    (fun s e => s + bounty e.type) 0
  let splats := (g.enemies.filter fun e => hit e && decide (dmg < e.hp)).map
    fun e => (⟨enemyCell g e, splat_time⟩ : HitSplat)
  {g with enemies := enemies', kibbles := g.kibbles + gained,
          hit_splats := g.hit_splats ++ splats}

/-! ## Firing routines (main.cpp 800-878, 1446-1617) -/

/-- Corridor test of `FireLaser`: forward projection above `-0.2F` and
perpendicular deviation at most `0.35F` along the unit direction. -/
def laserHitPred (g : GameState) (center : Vec2) (ndx ndy : ℚ) (e : Enemy) : Bool :=
  let pos := enemyCell g e
  let vx := (pos.x : ℚ) - center.x
  let vy := (pos.y : ℚ) - center.y
  if vx * ndx + vy * ndy < -(2 / 10) then false
  else decide (|vx * ndy - vy * ndx| ≤ 35 / 100)

/-- `FireLaser` (main.cpp 1446-1491); the decorative beam-cell trace is
presentational and omitted. -/
def fireLaser (g : GameState) (t : Tower) (target : Enemy) : GameState :=
  let center := towerCenter t
  let tc := enemyCell g target
  let dx := (tc.x : ℚ) - center.x
  let dy := (tc.y : ℚ) - center.y
  let len := max (1 / 1000) (ratSqrt (dx * dx + dy * dy))
  damagePass g (laserHitPred g center (dx / len) (dy / len)) t.damage (18 / 100)

/-- `FireShockwave` (main.cpp 1493-1514); the expanding ring is
presentational and omitted. -/
def fireShockwave (g : GameState) (t : Tower) : GameState :=
  let center := towerCenter t
  damagePass g (fun e => inRange center (enemyCell g e) t.range) t.damage (22 / 100)

/-- `KittyAttackArea` (main.cpp 220-244): a 3-deep, 2-wide rectangle toward
the target along the dominant axis, skipping off-board cells. -/
def kittyAttackArea (center : Vec2) (target_cell : Position) : List Position :=
  let dx := (target_cell.x : ℚ) - center.x
  let dy := (target_cell.y : ℚ) - center.y
  let horizontal := |dx| ≥ |dy|
  let primary_x : Int := if horizontal then qsgn dx else 0
  let primary_y : Int := if horizontal then 0 else qsgn dy
  let perp_x : Int := if horizontal then 0 else -primary_y
  let perp_y : Int := if horizontal then primary_x else 0
  let cx := round center.x
  let cy := round center.y
  ((([1, 2, 3] : List Int).map fun step => ([-1, 0] : List Int).map fun off =>
      (⟨cx + primary_x * step + perp_x * off,
        cy + primary_y * step + perp_y * off⟩ : Position)).flatten).filter inBoard

/-- `FireKitty` (main.cpp 1516-1541); the area highlight is omitted. -/
def fireKitty (g : GameState) (t : Tower) (target : Enemy) : GameState :=
  let area := kittyAttackArea (towerCenter t) (enemyCell g target)
  damagePass g (fun e => let pos := enemyCell g e; area.any fun c => c = pos)
    t.damage (18 / 100)

/-- `FireCatatonic` (main.cpp 1543-1559): damages nothing, extends sleep
timers with `min(cap, max(old, new))`. -/
def fireCatatonic (g : GameState) (t : Tower) : GameState :=
  let radius := if t.upgraded then t.range + 8 / 10 else t.range
  let sleep_dur := max 0 (min (if t.upgraded then kCatSleepUpgrade else kCatSleepBase) kCatSleepCap)
  let center := towerCenter t
  {g with enemies := g.enemies.map fun e =>
    if inRange center (enemyCell g e) radius then
      {e with sleep_timer := min kCatSleepCap (max e.sleep_timer sleep_dur)}
    else e}

/-- The void-proc knockback of `FireGalactic` (main.cpp 1598-1601). -/
def galacticKnock (void_proc : Bool) (e : Enemy) : Enemy :=
  if void_proc then
    {e with path_progress := max 0 (e.path_progress - kGalacticVoidBackstep)}
  else e

/-- The per-enemy block of `FireGalactic` (main.cpp 1591-1609): a hit
enemy suffers the knockback (when the void procced) and the damage. -/
def galacticStrike (g0 : GameState) (cells : List Position) (void_proc : Bool)
    (dmg : Int) (e : Enemy) : Enemy :=
  if (let pos := enemyCell g0 e; cells.any fun c => c = pos) then
    let e1 := galacticKnock void_proc e
    ({e1 with hp := e1.hp - dmg} : Enemy)
  else e

/-- `FireGalactic` (main.cpp 1561-1617): cone cells, optional void proc
(knockback), then the standard damage block per hit enemy.  The area
highlight is omitted.  The proc draw happens only for upgraded units
(short-circuit `&&` in the source): the oracle value is combined with
`&&`, and the draw counter advances only in that case. -/
def fireGalactic (g : GameState) (t : Tower) (target : Enemy) : GameState :=
  let center := towerCenter t
  let tc := enemyCell g target
  let dx := (tc.x : ℚ) - center.x
  let dy := (tc.y : ℚ) - center.y
  let len := max (1 / 1000) (ratSqrt (dx * dx + dy * dy))
  let ndx := dx / len
  let ndy := dy / len
  let cells := boardCells.filter fun c =>
    let vx := (c.x : ℚ) - center.x
    let vy := (c.y : ℚ) - center.y
    let dist2 := vx * vx + vy * vy
    if dist2 > t.range * t.range then false
    else
      let dist := ratSqrt dist2
      if dist < 1 / 10 then false
      else decide ((vx / dist) * ndx + (vy / dist) * ndy ≥ kGalacticConeCos)
  let voidProc := t.upgraded && decide (g.randQ g.rctr < kGalacticVoidChance)
  let rctr' := if t.upgraded then g.rctr + 1 else g.rctr
  let hitP := fun e => let pos := enemyCell g e; cells.any fun c => c = pos
  let gained := (g.enemies.filter fun e => hitP e && decide (e.hp - t.damage ≤ 0)).foldl
    (fun s e => s + bounty e.type) 0
  let splats := (g.enemies.filter fun e => hitP e && decide (t.damage < e.hp)).map
    fun e => (⟨enemyCell g e, 2 / 10⟩ : HitSplat)
  {g with enemies := g.enemies.map (galacticStrike g cells voidProc t.damage),
          kibbles := g.kibbles + gained,
          hit_splats := g.hit_splats ++ splats, rctr := rctr'}

/-- Projectile creation of the Default Cat case (main.cpp 803-811). -/
def addProjectile (g : GameState) (c : Vec2) (dmg : Int) (target : Enemy) : GameState :=
  {g with projectiles := g.projectiles ++ [⟨c.x, c.y, enemyCell g target, 17, dmg⟩]}

/-- The Default Cat arm of `TowersAct` (main.cpp 801-843): one projectile
at the target, or, when upgraded, at the front/middle/back of the in-range
live set sorted by progress descending. -/
def fireDefault (g : GameState) (t : Tower) (ti : Nat) : GameState :=
  let c := towerCenter t
  if t.upgraded then
    let eligible := (List.range g.enemies.length).filterMap fun i =>
      let e := g.enemies.getD i default
      if 0 < e.hp ∧ distanceSquared c (enemyCell g e) ≤ t.range * t.range then
        some (e.path_progress, i)
      else none
    if eligible.isEmpty then g
    else
      let sorted := eligible.insertionSort fun a b => a.1 ≥ b.1
      let front := (sorted.getD 0 default).2
      let back := (sorted.getD (sorted.length - 1) default).2
      let mid := (sorted.getD (sorted.length / 2) default).2
      let g := addProjectile g c t.damage (g.enemies.getD front default)
      let g := if mid ≠ front then addProjectile g c t.damage (g.enemies.getD mid default) else g
      if back ≠ front ∧ back ≠ mid then addProjectile g c t.damage (g.enemies.getD back default)
      else g
  else addProjectile g c t.damage (g.enemies.getD ti default)

/-! ## Kitty batch relocation (main.cpp 191-436) -/

/-- `TowerOccupancyMaskSkipping` as a cell predicate: footprint membership
of any non-skipped tower (the source's mask marks exactly the in-board such
cells, and is only queried on in-board cells). -/
def towerMaskSkipping (g : GameState) (skip : List Nat) (p : Position) : Bool :=
  (List.range g.towers.length).any fun i =>
    !decide (i ∈ skip) &&
    (let t := g.towers.getD i default
     decide (t.pos.x ≤ p.x ∧ p.x ≤ t.pos.x + t.size - 1 ∧
             t.pos.y ≤ p.y ∧ p.y ≤ t.pos.y + t.size - 1))

/-- `KittyAreaHitsEnemy` (main.cpp 246-260). -/
def kittyAreaHitsEnemy (g : GameState) (cells : List Position) : Bool :=
  g.enemies.any fun e =>
    decide (0 < e.hp) && (let pos := enemyCell g e; cells.any fun c => c = pos)

/-- `KittyCellBlocked` (main.cpp 262-281): off-board, on path, reserved (by
another unit), or statically occupied. -/
def kittyCellBlocked (g : GameState) (staticBlocked : Position → Bool)
    (reserved : List Position) (ignore : Option Position) (p : Position) : Bool :=
  if ¬inBoard p then true
  else if occupiesPath g p 1 then true
  else if p ∈ reserved ∧ ignore ≠ some p then true
  else staticBlocked p

/-- `CanKittyOccupyCell` (main.cpp 283-302). -/
def canKittyOccupyCell (g : GameState) (kitty_index : Nat) (p : Position) : Bool :=
  if ¬inBoard p then false
  else if occupiesPath g p 1 then false
  else (List.range g.towers.length).all fun i =>
    i = kitty_index ||
    (let t := g.towers.getD i default
     !decide (p.x ≥ t.pos.x ∧ p.x ≤ t.pos.x + t.size - 1 ∧
              p.y ≥ t.pos.y ∧ p.y ≤ t.pos.y + t.size - 1))

/-- Acceptance loop over shuffled candidates (main.cpp 350-358): the first
cell not reserved by someone else is reserved and returned. -/
def acceptFirst (own : Position) (reserved : List Position) :
    List Position → Option Position × List Position
  | [] => (none, reserved)
  | c :: rest =>
    if c ∈ reserved ∧ c ≠ own then acceptFirst own reserved rest
    else (some c, c :: reserved)

/-- `ChooseKittyLanding` (main.cpp 304-360).  `shuffled` is the RNG
permutation applied to the candidate list. -/
def chooseKittyLanding (g : GameState) (shuffled : List Position → List Position)
    (tower_index : Nat) (staticBlocked : Position → Bool)
    (reserved : List Position) : Option Position × List Position :=
  let t := g.towers.getD tower_index default
  let origin := towerCenter t
  let jump_range := t.range + kKittyJumpBonusRange
  let candidates := boardCells.filter fun cell =>
    if kittyCellBlocked g staticBlocked reserved (some t.pos) cell then false
    else if distanceSquared origin cell > jump_range * jump_range then false
    else
      let landing_center := towerCenterAt cell t.size
      match findTargetAt g t landing_center with
      | none => false
      | some ei =>
        kittyAreaHitsEnemy g
          (kittyAttackArea landing_center (enemyCell g (g.enemies.getD ei default)))
  if candidates.isEmpty then
    if ¬kittyCellBlocked g staticBlocked reserved (some t.pos) t.pos then
      (some t.pos, t.pos :: reserved)
    else (none, reserved)
  else acceptFirst t.pos reserved (shuffled candidates)

/-- The planning fold of `HandleKittyAttacks` (main.cpp 394-403): process
the shuffled jumper order, threading the reservation set; `k` numbers the
candidate-shuffle calls. -/
def planKittyJumps (g : GameState) (staticBlocked : Position → Bool) :
    Nat → List Nat → List Position → List (Nat × Position) × List Position
  | _, [], reserved => ([], reserved)
  | k, i :: rest, reserved =>
    let ck := chooseKittyLanding g (g.shufPos k) i staticBlocked reserved
    let pr := planKittyJumps g staticBlocked (k + 1) rest ck.2
    match ck.1 with
    | some c => ((i, c) :: pr.1, pr.2)
    | none => pr

/-- Destination resolution at the head of the attack loop of
`HandleKittyAttacks` (main.cpp 405-417): the planned landing cell of an
upgraded jumper, re-validated against the current state, else the unit's
own cell. -/
def kittyPlannedDest (planned : List (Nat × Position)) (g : GameState)
    (idx : Nat) : Position :=
  let t := g.towers.getD idx default
  if t.upgraded then
    match (planned.find? fun pr => pr.1 = idx) with
    | some pr => pr.2
    | none => t.pos
  else t.pos

def kittyDest (planned : List (Nat × Position)) (g : GameState) (idx : Nat) :
    Position :=
  let t := g.towers.getD idx default
  let destination := kittyPlannedDest planned g idx
  if destination ≠ t.pos ∧ ¬canKittyOccupyCell g idx destination then t.pos
  else destination

/-- One iteration of the attack loop of `HandleKittyAttacks`
(main.cpp 405-435): move to the planned destination if still free, attack
from the final position, revert (without consuming cooldown) if no target
is reachable there. -/
def applyKittyOne (planned : List (Nat × Position)) (g : GameState) (idx : Nat) :
    GameState :=
  let t := g.towers.getD idx default
  let original := t.pos
  let destination := kittyDest planned g idx
  let t1 := {t with pos := destination}
  let g1 := {g with towers := g.towers.set idx t1}
  match findTarget g1 t1 with
  | none => {g1 with towers := g1.towers.set idx {t1 with pos := original}}
  | some ei =>
    let g2 := fireKitty g1 t1 (g1.enemies.getD ei default)
    let cg := nextCooldown g2 t1.fire_rate
    {cg.2 with towers := cg.2.towers.set idx {t1 with cooldown := cg.1}}

/-- `HandleKittyAttacks` (main.cpp 362-436). -/
def handleKittyAttacks (g : GameState) : GameState :=
  let ready := (List.range g.towers.length).filter fun i =>
    let t := g.towers.getD i default
    t.type = TowerType.Kitty && !decide (t.cooldown > 0) && !g.enemies.isEmpty
  if ready.isEmpty then g
  else
    let jumping := ready.filter fun i => (g.towers.getD i default).upgraded
    let staticBlocked := towerMaskSkipping g jumping
    let reserved0 := (jumping.map fun i => (g.towers.getD i default).pos).filter inBoard
    let order := g.shufNat g.rctr jumping
    let g1 := {g with rctr := g.rctr + 1}
    let plan := planKittyJumps g1 staticBlocked g1.rctr order reserved0
    ready.foldl (applyKittyOne plan.1) g1

/-- `TowersAct` (main.cpp 784-879), per-tower firing dispatch after the
cooldown decrement; Kitty Cats are handled separately afterwards. -/
def towerFireStep (g : GameState) (i : Nat) : GameState :=
  let t := g.towers.getD i default
  if t.type = TowerType.Kitty ∨ t.cooldown > 0 then g
  else
    match findTarget g t with
    | none => g
    | some ti =>
      let target := g.enemies.getD ti default
      let g' :=
        match t.type with
        | TowerType.Default => fireDefault g t ti
        | TowerType.Thunder => fireLaser g t target
        | TowerType.Fat => fireShockwave g t
        | TowerType.Catatonic => fireCatatonic g t
        | TowerType.Galactic => fireGalactic g t target
        | TowerType.Kitty => g
      let cg := nextCooldown g' t.fire_rate
      {cg.2 with towers := cg.2.towers.set i {(cg.2.towers.getD i default) with cooldown := cg.1}}

def towersAct (g : GameState) : GameState :=
  let dt := dtOf g
  let g := {g with towers := g.towers.map fun t => {t with cooldown := t.cooldown - dt}}
  let g := (List.range g.towers.length).foldl towerFireStep g
  handleKittyAttacks g

/-! ## Projectiles (main.cpp 881-936) -/

/-- `MoveProjectiles` (main.cpp 881-896). -/
def moveProjectiles (g : GameState) : GameState :=
  let dt := dtOf g
  {g with projectiles := g.projectiles.map fun p =>
    let dx := (p.target.x : ℚ) - p.x
    let dy := (p.target.y : ℚ) - p.y
    let dist := ratSqrt (dx * dx + dy * dy)
    let step := p.speed * dt
    if dist ≤ step ∨ dist < 1 / 1000 then
      {p with x := (p.target.x : ℚ), y := (p.target.y : ℚ)}
    else {p with x := p.x + dx * (step / dist), y := p.y + dy * (step / dist)}}

/-- One projectile of `ResolveProjectiles` (main.cpp 901-933): arrived
projectiles hit the nearest enemy within squared distance `1.0F` of the
impact point — live or not — and run the standard damage block. -/
def resolveOne (g : GameState) (p : Projectile) : GameState × Option Projectile :=
  let dx := (p.target.x : ℚ) - p.x
  let dy := (p.target.y : ℚ) - p.y
  if dx * dx + dy * dy > 5 / 100 then (g, some p)
  else
    let hit := (List.range g.enemies.length).foldl
      (fun (acc : Option Nat × ℚ) i =>
        let pos := enemyCell g (g.enemies.getD i default)
        let d2 := ((pos.x : ℚ) - p.x) * ((pos.x : ℚ) - p.x) +
                  ((pos.y : ℚ) - p.y) * ((pos.y : ℚ) - p.y)
        if d2 < acc.2 then (some i, d2) else acc)
      (none, 1)
    match hit.1 with
    | none => (g, none)
    | some i =>
      let e := g.enemies.getD i default
      let e' := ({e with hp := e.hp - p.damage} : Enemy)
      let g := {g with enemies := g.enemies.set i e'}
      if e'.hp ≤ 0 then ({g with kibbles := g.kibbles + bounty e.type}, none)
      else ({g with hit_splats := g.hit_splats ++ [⟨enemyCell g e', 28 / 100⟩]}, none)

/-- One fold step of `ResolveProjectiles`: thread the state, append the
projectile to the survivor list when it has not arrived. -/
def resolveStep (acc : GameState × List Projectile) (p : Projectile) :
    GameState × List Projectile :=
  let gs := resolveOne acc.1 p
  (gs.1, match gs.2 with | some q => acc.2 ++ [q] | none => acc.2)

/-- `ResolveProjectiles` (main.cpp 898-936): fold over the projectiles,
keeping the survivors. -/
def resolveProjectiles (g : GameState) : GameState :=
  let r := g.projectiles.foldl resolveStep ({g with projectiles := []}, [])
  {r.1 with projectiles := r.2}

/-- `Cleanup` (main.cpp 938-942). -/
def cleanup (g : GameState) : GameState :=
  {g with enemies := g.enemies.filter fun e => !decide (e.hp ≤ 0)}

/-- `UpdateHitSplats` (main.cpp 985-993). -/
def updateHitSplats (g : GameState) : GameState :=
  let dt := dtOf g
  let aged := g.hit_splats.map fun hs => {hs with time_left := hs.time_left - dt}
  {g with hit_splats := aged.filter fun hs => !decide (hs.time_left ≤ 0)}

/-! ## Wave and map progression (main.cpp 995-1033) -/

/-- `AdvanceMap` (main.cpp 1015-1033): next map (wrapping), everything
map-scoped cleared, lives reset; kibbles preserved.  `map_index_ ≥ 0`
always, where C++ `%` agrees with `%` on `Int`. -/
def advanceMap (g : GameState) (dev_skip : Bool) : GameState :=
  let g := {g with map_index := (g.map_index + 1) % (g.maps.length : Int),
                   wave_active := false, spawn_remaining := 0,
                   enemies := [], towers := [], held_tower := none,
                   lives := kStartingLives, auto_waves := false}
  let g := buildPath g
  if dev_skip then {g with wave := g.map_index * 10} else g

/-- `CheckWaveCompletion` (main.cpp 995-1013).  `wave_ ≥ 1` whenever a wave
is active, where C++ `%` agrees with `%` on `Int`. -/
def checkWaveCompletion (g : GameState) : GameState :=
  if ¬g.wave_active then g
  else if g.spawn_remaining > 0 ∨ ¬g.enemies.isEmpty then g
  else
    let g := {g with wave_active := false, kibbles := g.kibbles + (20 + g.wave * 3)}
    let g := if g.wave % 10 = 0 then advanceMap g false else g
    if g.auto_waves ∧ ¬g.game_over then startWave g else g

/-! ## Placement and economy (main.cpp 1035-1066, 1360-1444, 1259-1272) -/

def isUnlocked (g : GameState) : TowerType → Bool
  | TowerType.Default => true
  | TowerType.Fat => g.unlocked_fat
  | TowerType.Kitty => g.unlocked_kitty
  | TowerType.Thunder => g.unlocked_thunder
  | TowerType.Catatonic => g.unlocked_catatonic
  | TowerType.Galactic => g.unlocked_galactic

def unlock (g : GameState) : TowerType → GameState
  | TowerType.Fat => {g with unlocked_fat := true}
  | TowerType.Kitty => {g with unlocked_kitty := true}
  | TowerType.Thunder => {g with unlocked_thunder := true}
  | TowerType.Catatonic => {g with unlocked_catatonic := true}
  | TowerType.Galactic => {g with unlocked_galactic := true}
  | TowerType.Default => g

/-- `TryUnlockOrSelect` (main.cpp 1259-1272). -/
def tryUnlockOrSelect (g : GameState) (ty : TowerType) : GameState :=
  if isUnlocked g ty then {g with selected_type := ty}
  else
    let unlock_cost := (getDef ty).cost * 10
    if g.kibbles ≥ unlock_cost then
      {unlock {g with kibbles := g.kibbles - unlock_cost} ty with selected_type := ty}
    else g

/-- `TryPlaceHeld` (main.cpp 1376-1389): re-placement of the held unit,
cost-free, with a fresh random cooldown (`Rand(0.05F, fire_rate)`). -/
def tryPlaceHeld (g : GameState) : GameState :=
  match g.held_tower with
  | none => g
  | some h =>
    let t := h.tower
    if ¬canPlace g g.cursor t.size t.type t.range t.upgraded then g
    else
      let t := ({t with pos := g.cursor, cooldown := g.randQ g.rctr} : Tower)
      {g with towers := g.towers ++ [t], held_tower := none,
              overlay_enabled := false, rctr := g.rctr + 1}

/-- The unit built by the purchase path of `PlaceTower` (main.cpp
1055-1062): definition stats at the cursor, random initial cooldown
(`Rand(0.05F, fire_rate)`, modeled by the stream draw). -/
def purchasedTower (g : GameState) : Tower :=
  ⟨g.cursor, (getDef g.selected_type).damage, (getDef g.selected_type).range,
   g.randQ g.rctr, (getDef g.selected_type).fire_rate,
   (getDef g.selected_type).type, (getDef g.selected_type).size, false⟩

/-- The successful-purchase outcome of `PlaceTower`. -/
def placeResult (g : GameState) : GameState :=
  {g with towers := g.towers ++ [purchasedTower g],
          kibbles := g.kibbles - (getDef g.selected_type).cost,
          rctr := g.rctr + 1}

/-- `PlaceTower` (main.cpp 1035-1066): the purchase path (or the held
re-placement when a unit is held). -/
def placeTower (g : GameState) : GameState :=
  if ¬g.overlay_enabled then g
  else if g.held_tower.isSome then tryPlaceHeld g
  else
    let td := getDef g.selected_type
    if ¬isUnlocked g td.type then g
    else if g.kibbles < td.cost then g
    else if ¬canPlace g g.cursor td.size td.type td.range false then g
    else placeResult g

/-- `PickUpTower` (main.cpp 1360-1374). -/
def pickUpTower (g : GameState) : GameState :=
  if g.held_tower.isSome then g
  else
    match towerIndexAt g g.cursor with
    | none => g
    | some i =>
      {g with held_tower := some ⟨g.towers.getD i default, (g.towers.getD i default).pos⟩,
              towers := g.towers.eraseIdx i, overlay_enabled := true}

/-- `CancelHold` (main.cpp 1391-1400): unconditionally restores the held
unit at its original position. -/
def cancelHold (g : GameState) : GameState :=
  match g.held_tower with
  | none => g
  | some h =>
    {g with towers := g.towers ++ [({h.tower with pos := h.original} : Tower)],
            held_tower := none, overlay_enabled := false}

/-- `SellTowerAtCursor` (main.cpp 1402-1416): refund `round(cost * 0.6F)`.
All six base costs make `cost * 0.6` an integer, so any tie-breaking
convention of `round` agrees with `std::round`. -/
def sellTowerAtCursor (g : GameState) : GameState :=
  if g.held_tower.isSome then g
  else
    match towerIndexAt g g.cursor with
    | none => g
    | some i =>
      let t := g.towers.getD i default
      let refund := round (((getDef t.type).cost : ℚ) * (6 / 10))
      {g with kibbles := g.kibbles + refund, towers := g.towers.eraseIdx i}

/-- `UpgradeTowerAtCursor` (main.cpp 1418-1444). -/
def upgradeTowerAtCursor (g : GameState) : GameState :=
  if g.held_tower.isSome then g
  else
    match towerIndexAt g g.cursor with
    | none => g
    | some i =>
      let t := g.towers.getD i default
      if t.upgraded then g
      else
        let cost := (getDef t.type).cost * 5
        if g.kibbles < cost then g
        else
          let t1 := ({t with upgraded := true} : Tower)
          let t2 :=
            if t1.type = TowerType.Fat then ({t1 with range := t1.range + 1} : Tower)
            else if t1.type = TowerType.Thunder then
              ({t1 with fire_rate := 2 / 10, cooldown := 0} : Tower)
            else t1
          {g with kibbles := g.kibbles - cost, towers := g.towers.set i t2}

/-! ## The tick (main.cpp 438-465) -/

/-- The damage-relevant prefix of `Tick`, up to and including
`ResolveProjectiles` (the later phases only age visuals and remove
entities). -/
def damagePhase (g : GameState) : GameState :=
  resolveProjectiles (moveProjectiles (towersAct (moveEnemies (spawnTick g))))

/-- `Tick` minus the early game-over return and the final game-over latch:
the phase sequence of main.cpp 447-457 (the three visual-only update
passes are omitted; they touch no gameplay state). -/
def tickCore (g : GameState) : GameState :=
  checkWaveCompletion (updateHitSplats (cleanup (damagePhase g)))

/-- `Tick` (main.cpp 438-465). -/
def tick (g : GameState) : GameState :=
  if g.game_over then g
  else
    let g := tickCore g
    if g.lives ≤ 0 then {g with game_over := true, auto_waves := false} else g

/-! ## Player actions (`HandleEvent`, main.cpp 467-614) -/

/-- The abstract player actions decoded by `HandleEvent`.  The two
audio-only toggles are external and omitted. -/
inductive Action where
  | moveCursor (dx dy : Int)
  | placeOrConfirm
  | startWaveManual
  | startWaveAuto
  | toggleFastForward
  | selectSlot (ty : TowerType)
  | toggleShop
  | escapeKey
  | pickupOrPlace
  | upgradeKey
  | sellKey
  | devSkip
  | toggleHelp
deriving DecidableEq

def clampCursor (g : GameState) (dx dy : Int) : GameState :=
  {g with cursor := ⟨max 0 (min (g.cursor.x + dx) (kBoardWidth - 1)),
                     max 0 (min (g.cursor.y + dy) (kBoardHeight - 1))⟩}

/-- The trailing `show_controls_ = false` applied to every handled
non-custom event (main.cpp 610-612). -/
def noHelp (g : GameState) : GameState := {g with show_controls := false}

/-- `HandleEvent` (main.cpp 467-614): a pure function from state and
action to new state plus a handled flag; returns unhandled and unchanged
when the game is over. -/
def handleEvent (g : GameState) (a : Action) : GameState × Bool :=
  if g.game_over then (g, false)
  else
    match a with
    | Action.toggleHelp => ({g with show_controls := !g.show_controls}, true)
    | Action.moveCursor dx dy => (noHelp (clampCursor g dx dy), true)
    | Action.placeOrConfirm => (noHelp (placeTower g), true)
    | Action.startWaveManual => (noHelp (startWave {g with auto_waves := false}), true)
    | Action.startWaveAuto =>
      let g := {g with auto_waves := true}
      (noHelp (if ¬g.wave_active then startWave g else g), true)
    | Action.toggleFastForward => (noHelp {g with fast_forward := !g.fast_forward}, true)
    | Action.selectSlot ty =>
      let g := if ty = TowerType.Default then {g with selected_type := ty}
               else tryUnlockOrSelect g ty
      (noHelp {g with overlay_enabled := true}, true)
    | Action.toggleShop => (noHelp {g with view_shop := !g.view_shop}, true)
    | Action.escapeKey =>
      let g := {g with view_shop := false, show_controls := false}
      let g := if g.held_tower.isSome then {cancelHold g with overlay_enabled := false}
               else {g with overlay_enabled := false}
      (noHelp g, true)
    | Action.pickupOrPlace =>
      (noHelp (if g.held_tower.isSome then tryPlaceHeld g else pickUpTower g), true)
    | Action.upgradeKey => (noHelp (upgradeTowerAtCursor g), true)
    | Action.sellKey => (noHelp (sellTowerAtCursor g), true)
    | Action.devSkip =>
      if g.dev_mode then (noHelp (advanceMap g true), true) else (g, false)

/-- The `Game` constructor (main.cpp 174-189), parameterized by the RNG
oracle streams. -/
def initGame (dev : Bool) (rq : Nat → ℚ) (rz : Nat → Int)
    (sp : Nat → List Position → List Position)
    (sn : Nat → List Nat → List Nat) : GameState :=
  let g : GameState :=
    { path := [], path_width := 1, enemies := [], towers := [], hit_splats := [],
      projectiles := [], held_tower := none, maps := builtMaps,
      cursor := ⟨3, 14⟩,
      randQ := rq, randZ := rz, shufPos := sp, shufNat := sn, rctr := 0,
      selected_type := TowerType.Default,
      unlocked_thunder := dev, unlocked_fat := dev, unlocked_kitty := dev,
      unlocked_catatonic := dev, unlocked_galactic := dev,
      view_shop := false, overlay_enabled := true, show_controls := false,
      auto_waves := false, fast_forward := false, dev_mode := dev,
      map_index := 0, kibbles := if dev then 1000000 else kStartingKibbles,
      lives := kStartingLives, wave := 0, wave_active := false,
      game_over := false, spawn_remaining := 0, spawn_cooldown_ms := 0 }
  buildPath g

/-! ## Concrete fixtures for witnesses and counterexamples -/

/-- Constant-zero RNG streams: one concrete RNG behavior. -/
def zeroQ : Nat → ℚ := fun _ => 0

def zeroZ : Nat → Int := fun _ => 0

def idSP : Nat → List Position → List Position := fun _ l => l

def idSN : Nat → List Nat → List Nat := fun _ l => l

/-- The built center path of the first map. -/
def map0Path : List Position := buildPathFromAnchors (builtMaps.getD 0 default).anchors

/-- An idle state on map 0 with empty collections: the start-of-game state
with the zero RNG streams. -/
def baseState : GameState :=
  { path := map0Path, path_width := 1, enemies := [], towers := [],
    hit_splats := [], projectiles := [], held_tower := none, maps := builtMaps,
    cursor := ⟨3, 14⟩, randQ := zeroQ, randZ := zeroZ, shufPos := idSP,
    shufNat := idSN, rctr := 0, selected_type := TowerType.Default,
    unlocked_thunder := false, unlocked_fat := false, unlocked_kitty := false,
    unlocked_catatonic := false, unlocked_galactic := false,
    view_shop := false, overlay_enabled := true, show_controls := false,
    auto_waves := false, fast_forward := false, dev_mode := false,
    map_index := 0, kibbles := 90, lives := 9, wave := 0, wave_active := false,
    game_over := false, spawn_remaining := 0, spawn_cooldown_ms := 0 }

/-- Two ready Thundercats and two rats on map 0: the first laser kills the
forward rat; the second tower then targets the surviving rat and its beam
passes through the already-dead one. -/
def gC1 : GameState :=
  {baseState with
    towers :=
      [ ⟨⟨11, 5⟩, 6, 999, 1 / 100, 26 / 10, TowerType.Thunder, 1, false⟩,
        ⟨⟨12, 20⟩, 6, 999, 1 / 100, 26 / 10, TowerType.Thunder, 1, false⟩ ],
    enemies :=
      [ ⟨22, 0, 2, 30, 0, EnemyType.Rat, 0⟩,
        ⟨14, 0, 20, 30, 0, EnemyType.Rat, 0⟩ ],
    wave := 1, wave_active := true, spawn_remaining := 5,
    spawn_cooldown_ms := 100000}

/-- One ready upgraded Galacticat below the path and one sleeping rat in
its cone; the zero `randQ` stream makes the void proc fire. -/
def gC2 : GameState :=
  {baseState with
    towers := [ ⟨⟨10, 16⟩, 9, 75 / 10, 1 / 100, 25 / 10, TowerType.Galactic, 1, true⟩ ],
    enemies := [ ⟨10, 1, 100, 100, 0, EnemyType.Rat, 5⟩ ]}

/-- A placed unit at (0,0) while a held unit remembers (0,0) as its
original cell: cancelling the hold restores it on top of the placed unit.
(This configuration is reachable: an upgraded Kitty Cat can jump onto the
cell a held unit vacated, after which cancelling reproduces it.) -/
def gC3 : GameState :=
  {baseState with
    towers := [ ⟨⟨0, 0⟩, 3, 45 / 10, 0, 85 / 100, TowerType.Default, 1, false⟩ ],
    held_tower := some ⟨⟨⟨5, 9⟩, 3, 45 / 10, 0, 85 / 100, TowerType.Default, 1, false⟩, ⟨0, 0⟩⟩}

/-- Two placed units with the cursor on the first: pick-up then cancel
moves it to the back of the unit list. -/
def gC7 : GameState :=
  {baseState with
    towers :=
      [ ⟨⟨0, 0⟩, 3, 45 / 10, 0, 85 / 100, TowerType.Default, 1, false⟩,
        ⟨⟨5, 9⟩, 4, 24 / 10, 0, 14 / 10, TowerType.Fat, 2, false⟩ ],
    cursor := ⟨0, 0⟩}

/-- One life left, wave 10 active with nothing left to spawn, and the last
rat about to escape: the escape zeroes `lives_`, but the milestone map
advance resets them before the game-over check. -/
def gC8 : GameState :=
  {baseState with
    enemies := [ ⟨100, 0, 5, 5, 0, EnemyType.Rat, 0⟩ ],
    lives := 1, wave := 10, wave_active := true, spawn_remaining := 0,
    spawn_cooldown_ms := 100000}

/-! ## Formal statements of the claims under test -/

/-- Total bounty, counted once per unit, of the enemies that die during the
tick: present at tick start with positive hp, non-positive hp once all the
tick's damage has been applied. -/
def dyingBounty (g : GameState) : Int :=
  ((List.range g.enemies.length).filter fun i =>
     decide (0 < (g.enemies.getD i default).hp) &&
     decide (((damagePhase g).enemies.getD i default).hp ≤ 0)).foldl
    (fun s i => s + bounty (g.enemies.getD i default).type) 0

/-- Claim C1 as stated: over a tick in which no wave completes
(`spawn_remaining > 0`) and no unit spawns, every dying unit's bounty is
awarded at most once, so the tick's currency gain is bounded by the sum of
the dying units' bounties. -/
def c1Claim : Prop :=
  ∀ g : GameState, g.game_over = false → 0 < g.spawn_remaining →
    (spawnTick g).enemies = g.enemies →
    (tick g).kibbles - g.kibbles ≤ dyingBounty g

/-- Claim C2 as stated: across the whole damage phase of a tick (movement
and all tower firing effects), a unit's `path_progress` is unchanged while
its disable timer is positive and non-decreasing while it is zero. -/
def c2Claim : Prop :=
  ∀ (g : GameState) (i : Nat), i < g.enemies.length →
    (((g.enemies.getD i default).sleep_timer > 0 →
        ((damagePhase g).enemies.getD i default).path_progress =
          (g.enemies.getD i default).path_progress) ∧
     ((g.enemies.getD i default).sleep_timer = 0 →
        (g.enemies.getD i default).path_progress ≤
          ((damagePhase g).enemies.getD i default).path_progress))

/-- Footprint intersection test between two units (the rectangle test of
`OverlapsTower`). -/
def footprintsOverlap (a b : Tower) : Bool :=
  !(decide (a.pos.x > b.pos.x + b.size - 1) ||
    decide (a.pos.x + a.size - 1 < b.pos.x) ||
    decide (a.pos.y > b.pos.y + b.size - 1) ||
    decide (a.pos.y + a.size - 1 < b.pos.y))

/-- The placement invariant of the spec: no two defensive units' footprints
overlap, and no footprint touches the path mask (which also forces every
footprint on-board). -/
def placementInvB (path : List Position) (w : Int) (towers : List Tower) : Bool :=
  ((List.range towers.length).all fun i => (List.range towers.length).all fun j =>
    decide (i = j) || !footprintsOverlap (towers.getD i default) (towers.getD j default)) &&
  ((List.range towers.length).all fun i =>
    !occupiesPathIn path w (towers.getD i default).pos (towers.getD i default).size)

def placementInv (g : GameState) : Bool :=
  placementInvB g.path g.path_width g.towers

def preservesInv (f : GameState → GameState) : Prop :=
  ∀ g : GameState, placementInv g = true → placementInv (f g) = true

/-- Claim C3 as stated: the batch relocation never assigns two jumping
units the same destination, and the non-overlap / off-path invariant holds
in every reachable state — formalized as: every state-mutating operation
of the game preserves it. -/
def c3Claim : Prop :=
  (∀ (g : GameState) (staticB : Position → Bool) (k : Nat)
     (order : List Nat) (reserved : List Position),
     order.Nodup →
     (∀ i, i ∈ order → (g.towers.getD i default).pos ∈ reserved) →
     (∀ i j, i ∈ order → j ∈ order → i ≠ j →
        (g.towers.getD i default).pos ≠ (g.towers.getD j default).pos) →
     (planKittyJumps g staticB k order reserved).1.Pairwise fun a b => a.2 ≠ b.2) ∧
  preservesInv handleKittyAttacks ∧ preservesInv placeTower ∧
  preservesInv tryPlaceHeld ∧ preservesInv pickUpTower ∧
  preservesInv sellTowerAtCursor ∧ preservesInv upgradeTowerAtCursor ∧
  preservesInv cancelHold ∧ preservesInv tick

/-- Claim C7 as stated: picking a unit up and immediately cancelling is the
identity on the game state. -/
def c7Claim : Prop :=
  ∀ (g : GameState) (i : Nat), g.held_tower = none →
    towerIndexAt g g.cursor = some i →
    cancelHold (pickUpTower g) = g

/-- Claim C8 as stated: whenever the lives counter reaches 0 during a tick
(it can only change in `MoveEnemies`), the game-over state is set by the
end of that tick. -/
def c8Claim : Prop :=
  ∀ g : GameState, g.game_over = false →
    (moveEnemies (spawnTick g)).lives = 0 →
    (tick g).game_over = true

/-! ## Helper lemmas on lists -/

theorem getD_set_self {α : Type} (l : List α) (i : Nat) (a d : α)
    (h : i < l.length) : (l.set i a).getD i d = a := by
  induction l generalizing i with
  | nil => simp at h
  | cons x xs ih =>
    cases i with
    | zero => rfl
    | succ n => simpa using ih n (by simpa using h)

theorem getD_set_ne {α : Type} (l : List α) (i j : Nat) (a d : α)
    (h : i ≠ j) : (l.set i a).getD j d = l.getD j d := by
  induction l generalizing i j with
  | nil => simp [List.set]
  | cons x xs ih =>
    cases i with
    | zero => cases j with
      | zero => exact absurd rfl h
      | succ m => rfl
    | succ n => cases j with
      | zero => rfl
      | succ m => simpa using ih n m (by omega)

theorem set_getD_self {α : Type} (l : List α) (i : Nat) (d : α) :
    l.set i (l.getD i d) = l := by
  induction l generalizing i with
  | nil => rfl
  | cons x xs ih =>
    cases i with
    | zero => rfl
    | succ n => simpa using ih n

theorem getD_map_of_lt {α β : Type} [Inhabited α] [Inhabited β]
    (f : α → β) (l : List α) (i : Nat) (h : i < l.length) :
    (l.map f).getD i default = f (l.getD i default) := by
  induction l generalizing i with
  | nil => simp at h
  | cons x xs ih =>
    cases i with
    | zero => rfl
    | succ n => simpa using ih n (by simpa using h)

theorem eraseIdx_append_getD_perm {α : Type} (l : List α) (i : Nat) (d : α)
    (h : i < l.length) : (l.eraseIdx i ++ [l.getD i d]).Perm l := by
  induction l generalizing i with
  | nil => simp at h
  | cons x xs ih =>
    cases i with
    | zero =>
      simp only [List.eraseIdx, List.getD, List.getElem?_cons_zero, Option.getD_some]
      exact List.perm_append_singleton x xs
    | succ n =>
      have := ih n (by simpa using h)
      simpa using this.cons x

/-! ## Claim C6: StartWave idempotence and effects -/

/-- C6: `StartWave` is a no-op when a wave is active or the game is over;
otherwise it increments the wave counter by exactly one, sets
`spawn_remaining` from the difficulty formula, resets the spawn cooldown
to 0, and a second call without the first wave completing changes nothing
further. -/
theorem c6_startWave :
    (∀ g : GameState, (g.wave_active = true ∨ g.game_over = true) → startWave g = g) ∧
    (∀ g : GameState, g.wave_active = false → g.game_over = false →
       ((startWave g).wave = g.wave + 1 ∧
        (startWave g).spawn_remaining =
          6 + (g.wave % 10 + 1 + g.map_index * 2) * 2 ∧
        (startWave g).spawn_cooldown_ms = 0 ∧
        (startWave g).wave_active = true ∧
        startWave (startWave g) = startWave g)) := by
  constructor
  · intro g h
    rcases h with h | h <;> simp [startWave, h]
  · intro g hw hover
    have hne : ¬(g.wave_active = true ∨ g.game_over = true) := by
      simp [hw, hover]
    refine ⟨?_, ?_, ?_, ?_, ?_⟩ <;>
      simp [startWave, hw, hover, difficultyLevel]

/-- Witness for C6 at the initial idle state. -/
theorem c6_startWave_witness :
    (startWave baseState).wave = baseState.wave + 1 ∧
    (startWave baseState).spawn_remaining =
      6 + (baseState.wave % 10 + 1 + baseState.map_index * 2) * 2 ∧
    (startWave baseState).spawn_cooldown_ms = 0 ∧
    (startWave baseState).wave_active = true ∧
    startWave (startWave baseState) = startWave baseState :=
  c6_startWave.2 baseState rfl rfl

/-! ## Claim C8: game over latch and freeze -/

/-- C8 (amended): once the game-over flag is set, ticks and player actions
leave the state unchanged and report unhandled; and if lives are still 0
when the end-of-tick check runs (i.e. the tick did not advance the map,
which resets them), the game-over flag is set and auto-wave cleared.  The
claim as literally stated — reaching 0 lives mid-tick always latches game
over — fails on milestone waves (see `c8_counterexample`). -/
theorem c8_amended :
    (∀ (g : GameState) (a : Action), g.game_over = true →
       tick g = g ∧ handleEvent g a = (g, false)) ∧
    (∀ g : GameState, g.game_over = false → (tickCore g).lives ≤ 0 →
       (tick g).game_over = true ∧ (tick g).auto_waves = false) := by
  constructor
  · intro g a h
    constructor
    · simp [tick, h]
    · simp [handleEvent, h]
  · intro g h hl
    simp [tick, h, hl]

/-- Witness for C8: a concrete game-over state is frozen. -/
theorem c8_amended_witness :
    tick {baseState with game_over := true} = {baseState with game_over := true} ∧
    handleEvent {baseState with game_over := true} Action.sellKey =
      ({baseState with game_over := true}, false) :=
  c8_amended.1 {baseState with game_over := true} Action.sellKey rfl

/-- C8 counterexample: in `gC8` the last life is lost mid-tick, but the
same tick completes wave 10, the map advance resets lives to 9, and the
game-over flag is never set. -/
theorem c8_counterexample : ¬c8Claim := by
  intro h
  exact absurd (h gC8 (by decide) (by decide)) (by decide)

/-! ## Claim C9: map index stays in bounds -/

/-- C9: the map index starts at 0, its only mutation is `+1` modulo the
catalog size (10), so it stays in `[0, 10)` and `CurrentMap`'s unguarded
indexing equals `catalog[map_index % size]`. -/
theorem c9_map_index :
    (∀ (dev : Bool) (rq : Nat → ℚ) (rz : Nat → Int)
       (sp : Nat → List Position → List Position) (sn : Nat → List Nat → List Nat),
       (initGame dev rq rz sp sn).map_index = 0 ∧
       (initGame dev rq rz sp sn).maps.length = 10) ∧
    (∀ g : GameState, g.maps.length = 10 → 0 ≤ g.map_index → g.map_index < 10 →
       ((advanceMap g false).map_index = (g.map_index + 1) % 10 ∧
        0 ≤ (advanceMap g false).map_index ∧
        (advanceMap g false).map_index < 10 ∧
        currentMap g = g.maps.getD (g.map_index % 10).toNat default)) := by
  constructor
  · intro dev rq rz sp sn
    constructor
    · simp [initGame, buildPath]
    · simp [initGame, buildPath, builtMaps]
  · intro g hlen hlo hhi
    have hmod : (g.map_index + 1) % (g.maps.length : Int) = (g.map_index + 1) % 10 := by
      rw [hlen]; norm_num
    refine ⟨?_, ?_, ?_, ?_⟩
    · simp [advanceMap, buildPath, hmod]
    · simp only [advanceMap, buildPath, hmod]
      exact Int.emod_nonneg _ (by norm_num)
    · simp only [advanceMap, buildPath, hmod]
      exact Int.emod_lt_of_pos _ (by norm_num)
    · rw [Int.emod_eq_of_lt hlo hhi]; rfl

/-- Witness for C9 at the initial state. -/
theorem c9_map_index_witness :
    (advanceMap baseState false).map_index = (baseState.map_index + 1) % 10 ∧
    0 ≤ (advanceMap baseState false).map_index ∧
    (advanceMap baseState false).map_index < 10 ∧
    currentMap baseState = baseState.maps.getD (baseState.map_index % 10).toNat default :=
  c9_map_index.2 baseState (by decide) (by decide) (by decide)

/-! ## Claim C4: wave completion and milestone map advance -/

theorem startWave_fields (g : GameState) :
    (startWave g).kibbles = g.kibbles ∧ (startWave g).map_index = g.map_index ∧
    (startWave g).towers = g.towers ∧ (startWave g).held_tower = g.held_tower ∧
    (startWave g).lives = g.lives ∧ (startWave g).enemies = g.enemies := by
  by_cases h : g.wave_active = true ∨ g.game_over = true <;> simp [startWave, h]

theorem advanceMap_fields (g : GameState) (d : Bool) :
    (advanceMap g d).map_index = (g.map_index + 1) % (g.maps.length : Int) ∧
    (advanceMap g d).enemies = [] ∧ (advanceMap g d).towers = [] ∧
    (advanceMap g d).held_tower = none ∧ (advanceMap g d).lives = kStartingLives ∧
    (advanceMap g d).wave_active = false ∧ (advanceMap g d).auto_waves = false ∧
    (advanceMap g d).kibbles = g.kibbles ∧ (advanceMap g d).game_over = g.game_over := by
  cases d <;> simp [advanceMap, buildPath]

/-- C4: a wave is reported complete exactly when nothing remains to spawn
and no hostiles remain; at that instant the completion bonus
`20 + wave * 3` is awarded, and on a multiple-of-10 wave the map index
advances (wrapping), clearing hostiles, defenders and the held unit and
resetting lives; otherwise those are untouched. -/
theorem c4_wave_completion :
    (∀ g : GameState,
       (g.wave_active = false ∨ 0 < g.spawn_remaining ∨ g.enemies ≠ []) →
       checkWaveCompletion g = g) ∧
    (∀ g : GameState, g.wave_active = true → g.spawn_remaining = 0 → g.enemies = [] →
       ((checkWaveCompletion g).kibbles = g.kibbles + (20 + g.wave * 3) ∧
        (g.wave % 10 = 0 →
           (checkWaveCompletion g).map_index = (g.map_index + 1) % (g.maps.length : Int) ∧
           (checkWaveCompletion g).enemies = [] ∧
           (checkWaveCompletion g).towers = [] ∧
           (checkWaveCompletion g).held_tower = none ∧
           (checkWaveCompletion g).lives = kStartingLives ∧
           (checkWaveCompletion g).wave_active = false) ∧
        (¬g.wave % 10 = 0 →
           (checkWaveCompletion g).map_index = g.map_index ∧
           (checkWaveCompletion g).towers = g.towers ∧
           (checkWaveCompletion g).held_tower = g.held_tower ∧
           (checkWaveCompletion g).lives = g.lives))) := by
  constructor
  · intro g h
    unfold checkWaveCompletion
    by_cases hw : g.wave_active = true
    · rw [if_neg (by simp [hw])]
      have hcond : g.spawn_remaining > 0 ∨ ¬g.enemies.isEmpty = true := by
        rcases h with h | h | h
        · exact absurd hw (by simp [h])
        · exact Or.inl h
        · exact Or.inr (by simpa [List.isEmpty_iff] using h)
      rw [if_pos hcond]
    · rw [if_pos hw]
  · intro g hw hs he
    have hguard : ¬(g.spawn_remaining > 0 ∨ ¬g.enemies.isEmpty = true) := by
      simp [hs, he]
    by_cases hm : g.wave % 10 = 0
    · have hauto : ∀ gx : GameState,
          ¬((advanceMap gx false).auto_waves = true ∧
            ¬(advanceMap gx false).game_over = true) := by
        intro gx hc
        have h1 := hc.1
        rw [(advanceMap_fields gx false).2.2.2.2.2.2.1] at h1
        simp at h1
      have hres : checkWaveCompletion g =
          advanceMap {g with wave_active := false,
                             kibbles := g.kibbles + (20 + g.wave * 3)} false := by
        simp only [checkWaveCompletion]
        rw [if_neg (by simp [hw]), if_neg hguard, if_pos hm, if_neg (hauto _)]
      have hf := advanceMap_fields
        {g with wave_active := false, kibbles := g.kibbles + (20 + g.wave * 3)} false
      rw [hres]
      refine ⟨?_, fun _ => ⟨?_, ?_, ?_, ?_, ?_, ?_⟩, fun hn => absurd hm hn⟩
      · rw [hf.2.2.2.2.2.2.2.1]
      · rw [hf.1]
      · exact hf.2.1
      · exact hf.2.2.1
      · exact hf.2.2.2.1
      · exact hf.2.2.2.2.1
      · exact hf.2.2.2.2.2.1
    · have hres : checkWaveCompletion g =
          (if ({g with wave_active := false,
                       kibbles := g.kibbles + (20 + g.wave * 3)} : GameState).auto_waves = true ∧
              ¬({g with wave_active := false,
                        kibbles := g.kibbles + (20 + g.wave * 3)} : GameState).game_over = true
           then startWave {g with wave_active := false,
                                  kibbles := g.kibbles + (20 + g.wave * 3)}
           else {g with wave_active := false,
                        kibbles := g.kibbles + (20 + g.wave * 3)}) := by
        simp only [checkWaveCompletion]
        rw [if_neg (by simp [hw]), if_neg hguard, if_neg hm]
      rw [hres]
      by_cases ha : ({g with wave_active := false,
                             kibbles := g.kibbles + (20 + g.wave * 3)} : GameState).auto_waves = true ∧
                    ¬({g with wave_active := false,
                              kibbles := g.kibbles + (20 + g.wave * 3)} : GameState).game_over = true
      · rw [if_pos ha]
        have hsw := startWave_fields
          {g with wave_active := false, kibbles := g.kibbles + (20 + g.wave * 3)}
        refine ⟨?_, fun h0 => absurd h0 hm, fun _ => ⟨?_, ?_, ?_, ?_⟩⟩
        · rw [hsw.1]
        · rw [hsw.2.1]
        · rw [hsw.2.2.1]
        · rw [hsw.2.2.2.1]
        · rw [hsw.2.2.2.2.1]
      · rw [if_neg ha]
        exact ⟨rfl, fun h0 => absurd h0 hm, fun _ => ⟨rfl, rfl, rfl, rfl⟩⟩

/-- Witness for C4: completing wave 3 in a concrete state awards the bonus
and leaves the board alone. -/
theorem c4_wave_completion_witness :
    (checkWaveCompletion {baseState with wave := 3, wave_active := true}).kibbles =
      ({baseState with wave := 3, wave_active := true} : GameState).kibbles +
        (20 + ({baseState with wave := 3, wave_active := true} : GameState).wave * 3) :=
  (c4_wave_completion.2 {baseState with wave := 3, wave_active := true} rfl rfl rfl).1

/-! ## Claim C5: placement validity and the double-placement scenario -/

theorem getDef_size_pos (ty : TowerType) : 1 ≤ (getDef ty).size := by
  cases ty <;> decide

/-- C5: `CanPlace` is a pure predicate of the state and its arguments; a
purchase succeeds only when the selected type is unlocked, affordable, and
`CanPlace` holds at the cursor; on success currency drops by exactly the
cost and the unit appears at the cursor; and a second purchase attempt at
the now-occupied cursor changes nothing. -/
theorem c5_placement :
    (∀ (g : GameState) (p : Position) (s : Int) (ty : TowerType) (r : ℚ) (u : Bool),
       canPlace g p s ty r u = canPlace g p s ty r u) ∧
    (∀ g : GameState, g.held_tower = none → placeTower g ≠ g →
       (isUnlocked g (getDef g.selected_type).type = true ∧
        (getDef g.selected_type).cost ≤ g.kibbles ∧
        canPlace g g.cursor (getDef g.selected_type).size (getDef g.selected_type).type
          (getDef g.selected_type).range false = true)) ∧
    (∀ g : GameState, g.held_tower = none → g.overlay_enabled = true →
       isUnlocked g (getDef g.selected_type).type = true →
       ¬(g.kibbles < (getDef g.selected_type).cost) →
       canPlace g g.cursor (getDef g.selected_type).size (getDef g.selected_type).type
         (getDef g.selected_type).range false = true →
       ((placeTower g).kibbles = g.kibbles - (getDef g.selected_type).cost ∧
        (placeTower g).towers = g.towers ++ [purchasedTower g] ∧
        placeTower (placeTower g) = placeTower g)) := by
  refine ⟨fun g p s ty r u => rfl, ?_, ?_⟩
  · intro g hheld hne
    by_cases hov : g.overlay_enabled = true
    case neg => exact absurd (by simp [placeTower, hov]) hne
    by_cases hun : isUnlocked g (getDef g.selected_type).type = true
    case neg =>
      exact absurd (by
        simp only [placeTower]
        rw [if_neg (by simp [hov]), if_neg (by simp [hheld]), if_pos (by simp [hun])]) hne
    by_cases hk : g.kibbles < (getDef g.selected_type).cost
    case pos =>
      exact absurd (by
        simp only [placeTower]
        rw [if_neg (by simp [hov]), if_neg (by simp [hheld]), if_neg (by simp [hun]),
            if_pos hk]) hne
    by_cases hcp : canPlace g g.cursor (getDef g.selected_type).size
        (getDef g.selected_type).type (getDef g.selected_type).range false = true
    case neg =>
      exact absurd (by
        simp only [placeTower]
        rw [if_neg (by simp [hov]), if_neg (by simp [hheld]), if_neg (by simp [hun]),
            if_neg hk, if_pos (by simp [hcp])]) hne
    exact ⟨hun, Int.not_lt.mp hk, hcp⟩
  · intro g hheld hov hun hk hcp
    have hform : placeTower g = placeResult g := by
      simp only [placeTower]
      rw [if_neg (by simp [hov]), if_neg (by simp [hheld]), if_neg (by simp [hun]),
          if_neg hk, if_neg (by simp [hcp])]
    have hsel : (placeResult g).selected_type = g.selected_type := rfl
    have hcur : (placeResult g).cursor = g.cursor := rfl
    have hun1 : ∀ τ, isUnlocked (placeResult g) τ = isUnlocked g τ := by
      intro τ; cases τ <;> rfl
    -- the freshly placed unit makes its own cell fail the overlap check
    have hsz := getDef_size_pos g.selected_type
    have hover : overlapsTower (placeResult g) g.cursor (getDef g.selected_type).size = true := by
      have ht : (placeResult g).towers = g.towers ++ [purchasedTower g] := rfl
      rw [overlapsTower, ht, List.any_append]
      refine Bool.or_eq_true_iff.mpr (Or.inr ?_)
      have hp : (purchasedTower g).pos = g.cursor := rfl
      have hs : (purchasedTower g).size = (getDef g.selected_type).size := rfl
      have h1 : ¬g.cursor.x > (purchasedTower g).pos.x + (purchasedTower g).size - 1 := by
        rw [hp, hs]; omega
      have h2 : ¬g.cursor.x + (getDef g.selected_type).size - 1 < (purchasedTower g).pos.x := by
        rw [hp]; omega
      have h3 : ¬g.cursor.y > (purchasedTower g).pos.y + (purchasedTower g).size - 1 := by
        rw [hp, hs]; omega
      have h4 : ¬g.cursor.y + (getDef g.selected_type).size - 1 < (purchasedTower g).pos.y := by
        rw [hp]; omega
      simp [h1, h2, h3, h4]
    have hbnd : ¬(g.cursor.x < 0 ∨ g.cursor.y < 0 ∨
        g.cursor.x + (getDef g.selected_type).size - 1 ≥ kBoardWidth ∨
        g.cursor.y + (getDef g.selected_type).size - 1 ≥ kBoardHeight) := by
      intro hb
      rw [canPlace, if_pos hb] at hcp
      exact Bool.noConfusion hcp
    have hcp1 : ¬(canPlace (placeResult g) g.cursor (getDef g.selected_type).size
        (getDef g.selected_type).type (getDef g.selected_type).range false = true) := by
      rw [canPlace, if_neg hbnd]
      by_cases hop : occupiesPath (placeResult g) g.cursor (getDef g.selected_type).size = true
      · rw [if_pos hop]; exact Bool.noConfusion
      · rw [if_neg hop, if_pos hover]; exact Bool.noConfusion
    refine ⟨by rw [hform]; rfl, by rw [hform]; rfl, ?_⟩
    rw [hform]
    by_cases hk1 : (placeResult g).kibbles < (getDef (placeResult g).selected_type).cost
    · simp only [placeTower]
      rw [if_neg (by simp [placeResult, hov]), if_neg (by simp [placeResult, hheld]),
          if_neg (by rw [hsel, hun1]; simp [hun]), if_pos hk1]
    · simp only [placeTower]
      rw [if_neg (by simp [placeResult, hov]), if_neg (by simp [placeResult, hheld]),
          if_neg (by rw [hsel, hun1]; simp [hun]), if_neg hk1,
          if_pos (by rw [hsel, hcur]; exact hcp1)]

/-- Witness for C5: the spec's scenario — currency 90, a Default Cat
costing 35 at the empty non-path cell (3,10): the purchase succeeds,
currency becomes 55, and the immediate second attempt changes nothing. -/
theorem c5_placement_witness :
    (placeTower {baseState with cursor := ⟨3, 10⟩}).kibbles =
      ({baseState with cursor := ⟨3, 10⟩} : GameState).kibbles -
        (getDef ({baseState with cursor := ⟨3, 10⟩} : GameState).selected_type).cost ∧
    placeTower (placeTower {baseState with cursor := ⟨3, 10⟩}) =
      placeTower {baseState with cursor := ⟨3, 10⟩} :=
  have h := c5_placement.2.2 {baseState with cursor := ⟨3, 10⟩} rfl rfl
    (by decide) (by decide) (by decide)
  ⟨h.1, h.2.2⟩

/-! ## Claim C7: pick-up then cancel -/

theorem towerIndexAtAux_lt (p : Position) (l : List Tower) (i : Nat)
    (h : towerIndexAtAux p l = some i) : i < l.length := by
  induction l generalizing i with
  | nil =>
    rw [show towerIndexAtAux p [] = (none : Option Nat) from rfl] at h
    cases h
  | cons t rest ih =>
    rw [towerIndexAtAux] at h
    split at h
    · cases h; simp
    · cases hmap : towerIndexAtAux p rest with
      | none => rw [hmap] at h; simp at h
      | some j =>
        rw [hmap] at h
        simp at h
        have := ih j hmap
        simp only [List.length_cons]
        omega

/-- C7 (amended): from a state with no held unit and a unit under the
cursor, pick-up followed by cancel restores that unit with its exact
position and stats, leaves currency and all other gameplay collections
unchanged, and always succeeds — but the restored unit moves to the back
of the unit list (and the placement overlay closes), so the round trip is
a permutation of the unit list rather than the literal identity
(`c7_counterexample`). -/
theorem c7_amended (g : GameState) (i : Nat)
    (hheld : g.held_tower = none) (hidx : towerIndexAt g g.cursor = some i) :
    ((cancelHold (pickUpTower g)).towers =
       g.towers.eraseIdx i ++ [g.towers.getD i default] ∧
     (cancelHold (pickUpTower g)).towers.Perm g.towers ∧
     (cancelHold (pickUpTower g)).held_tower = none ∧
     (cancelHold (pickUpTower g)).kibbles = g.kibbles ∧
     (cancelHold (pickUpTower g)).enemies = g.enemies ∧
     (cancelHold (pickUpTower g)).lives = g.lives ∧
     (cancelHold (pickUpTower g)).wave = g.wave ∧
     (cancelHold (pickUpTower g)).wave_active = g.wave_active ∧
     (cancelHold (pickUpTower g)).projectiles = g.projectiles ∧
     (cancelHold (pickUpTower g)).spawn_remaining = g.spawn_remaining) := by
  have hlt : i < g.towers.length := towerIndexAtAux_lt g.cursor g.towers i hidx
  have hp : pickUpTower g =
      {g with held_tower := some ⟨g.towers.getD i default, (g.towers.getD i default).pos⟩,
              towers := g.towers.eraseIdx i, overlay_enabled := true} := by
    simp only [pickUpTower]
    rw [if_neg (by simp [hheld]), hidx]
  have hc : cancelHold (pickUpTower g) =
      {g with towers := g.towers.eraseIdx i ++ [g.towers.getD i default],
              held_tower := none, overlay_enabled := false} := by
    rw [hp]
    rfl
  rw [hc]
  exact ⟨rfl, eraseIdx_append_getD_perm g.towers i default hlt, rfl, rfl, rfl,
         rfl, rfl, rfl, rfl, rfl⟩

/-- Witness for C7 at a concrete two-unit state. -/
theorem c7_amended_witness :
    (cancelHold (pickUpTower gC7)).kibbles = gC7.kibbles ∧
    (cancelHold (pickUpTower gC7)).towers.Perm gC7.towers ∧
    (cancelHold (pickUpTower gC7)).held_tower = none :=
  have h := c7_amended gC7 0 rfl (by decide)
  ⟨h.2.2.2.1, h.2.1, h.2.2.1⟩

/-- C7 counterexample: with two placed units and the cursor on the first,
pick-up then cancel reorders the unit list, so the round trip is not the
identity on the game state. -/
theorem c7_counterexample : ¬c7Claim := by
  intro h
  exact absurd (congrArg GameState.towers (h gC7 0 rfl (by decide))) (by decide)

/-! ## Claim C10: sell / upgrade / pick-up are no-ops while holding -/

/-- C10: while a unit is held, the sell, upgrade, and pick-up actions are
silent no-ops leaving the entire game state unchanged. -/
theorem c10_held_noops (g : GameState) (h : g.held_tower.isSome = true) :
    sellTowerAtCursor g = g ∧ upgradeTowerAtCursor g = g ∧ pickUpTower g = g := by
  refine ⟨?_, ?_, ?_⟩ <;>
    simp [sellTowerAtCursor, upgradeTowerAtCursor, pickUpTower, h]

/-- Witness for C10 at a concrete holding state. -/
theorem c10_held_noops_witness :
    sellTowerAtCursor gC3 = gC3 ∧ upgradeTowerAtCursor gC3 = gC3 ∧
    pickUpTower gC3 = gC3 :=
  c10_held_noops gC3 (by decide)

/-! ## Claim C2: path progress monotonicity -/

theorem set_beyond {α : Type} (l : List α) (i : Nat) (a : α)
    (h : l.length ≤ i) : l.set i a = l := by
  induction l generalizing i with
  | nil => rfl
  | cons x xs ih =>
    cases i with
    | zero => simp at h
    | succ n => simpa using ih n (by simpa using h)

theorem getD_map_progress (f : Enemy → Enemy)
    (hf : ∀ e : Enemy, (f e).path_progress = e.path_progress)
    (l : List Enemy) (i : Nat) :
    ((l.map f).getD i default).path_progress = (l.getD i default).path_progress := by
  induction l generalizing i with
  | nil => rfl
  | cons x xs ih =>
    cases i with
    | zero => exact hf x
    | succ n => simpa using ih n

theorem getD_map_progress_cases (f : Enemy → Enemy)
    (hf : ∀ e : Enemy, (f e).path_progress = e.path_progress ∨
      (f e).path_progress = max 0 (e.path_progress - kGalacticVoidBackstep))
    (l : List Enemy) (i : Nat) :
    ((l.map f).getD i default).path_progress = (l.getD i default).path_progress ∨
    ((l.map f).getD i default).path_progress =
      max 0 ((l.getD i default).path_progress - kGalacticVoidBackstep) := by
  induction l generalizing i with
  | nil => left; rfl
  | cons x xs ih =>
    cases i with
    | zero => exact hf x
    | succ n => simpa using ih n

theorem damagePass_progress (g : GameState) (hit : Enemy → Bool) (dmg : Int)
    (st : ℚ) (i : Nat) :
    ((damagePass g hit dmg st).enemies.getD i default).path_progress =
      (g.enemies.getD i default).path_progress :=
  getD_map_progress _ (fun e => by by_cases h : hit e = true <;> simp [h]) g.enemies i

theorem resolveOne_progress (g : GameState) (p : Projectile) (i : Nat) :
    ((resolveOne g p).1.enemies.getD i default).path_progress =
      (g.enemies.getD i default).path_progress := by
  simp only [resolveOne]
  split
  · rfl
  · split
    · rfl
    · rename_i j _
      split <;>
      · show ((g.enemies.set j _).getD i default).path_progress = _
        by_cases hlen : g.enemies.length ≤ j
        · rw [set_beyond _ _ _ hlen]
        · by_cases hij : j = i
          · subst hij
            rw [getD_set_self _ _ _ _ (by omega)]
          · rw [getD_set_ne _ _ _ _ _ hij]

theorem resolveFold_progress (ps : List Projectile) :
    ∀ (acc : GameState × List Projectile) (i : Nat),
    (((ps.foldl resolveStep acc).1).enemies.getD i default).path_progress =
      (acc.1.enemies.getD i default).path_progress := by
  induction ps with
  | nil => intro acc i; rfl
  | cons p ps ih =>
    intro acc i
    rw [List.foldl_cons, ih]
    exact resolveOne_progress acc.1 p i

theorem resolveProjectiles_progress (g : GameState) (i : Nat) :
    ((resolveProjectiles g).enemies.getD i default).path_progress =
      (g.enemies.getD i default).path_progress := by
  simp only [resolveProjectiles]
  rw [resolveFold_progress g.projectiles ({g with projectiles := []}, []) i]

theorem dtOf_nonneg (g : GameState) : 0 ≤ dtOf g := by
  rw [dtOf, timeScale, kTickSeconds, kFastForwardMultiplier]
  split <;> norm_num

/-- C2 (amended): movement leaves the progress of disabled units unchanged
(their timer decays) and advances others by `speed * dt`; every combat
effect preserves every unit's progress — except the upgraded Galacticat
void proc, which moves each hit unit to `max 0 (progress - 6)` regardless
of the disable timer (`c2_counterexample`). -/
theorem c2_amended :
    (∀ (g : GameState) (i : Nat), i < g.enemies.length →
       (((g.enemies.getD i default).sleep_timer > 0 →
          ((moveEnemies g).enemies.getD i default).path_progress =
            (g.enemies.getD i default).path_progress ∧
          ((moveEnemies g).enemies.getD i default).sleep_timer =
            max 0 ((g.enemies.getD i default).sleep_timer - dtOf g)) ∧
        (¬(g.enemies.getD i default).sleep_timer > 0 →
          0 ≤ (g.enemies.getD i default).speed →
          ((moveEnemies g).enemies.getD i default).path_progress =
            (g.enemies.getD i default).path_progress +
              (g.enemies.getD i default).speed * dtOf g ∧
          (g.enemies.getD i default).path_progress ≤
            ((moveEnemies g).enemies.getD i default).path_progress))) ∧
    (∀ (g : GameState) (t : Tower) (e : Enemy) (i : Nat),
       ((fireLaser g t e).enemies.getD i default).path_progress =
         (g.enemies.getD i default).path_progress ∧
       ((fireShockwave g t).enemies.getD i default).path_progress =
         (g.enemies.getD i default).path_progress ∧
       ((fireKitty g t e).enemies.getD i default).path_progress =
         (g.enemies.getD i default).path_progress ∧
       ((fireCatatonic g t).enemies.getD i default).path_progress =
         (g.enemies.getD i default).path_progress ∧
       ((resolveProjectiles g).enemies.getD i default).path_progress =
         (g.enemies.getD i default).path_progress) ∧
    (∀ (g : GameState) (t : Tower) (e : Enemy) (i : Nat),
       ((fireGalactic g t e).enemies.getD i default).path_progress =
         (g.enemies.getD i default).path_progress ∨
       ((fireGalactic g t e).enemies.getD i default).path_progress =
         max 0 ((g.enemies.getD i default).path_progress - kGalacticVoidBackstep)) := by
  refine ⟨?_, ?_, ?_⟩
  · intro g i hi
    have hme : (moveEnemies g).enemies =
        (g.enemies.map (stepEnemy (dtOf g))).map
          (escapeStep ((g.path.length : Int) - 1)) := rfl
    have hlen1 : i < (g.enemies.map (stepEnemy (dtOf g))).length := by
      simpa using hi
    have hout : (moveEnemies g).enemies.getD i default =
        escapeStep ((g.path.length : Int) - 1)
          (stepEnemy (dtOf g) (g.enemies.getD i default)) := by
      rw [hme, getD_map_of_lt _ _ i hlen1, getD_map_of_lt _ _ i hi]
    have hesc : ∀ e : Enemy,
        (escapeStep ((g.path.length : Int) - 1) e).path_progress = e.path_progress ∧
        (escapeStep ((g.path.length : Int) - 1) e).sleep_timer = e.sleep_timer := by
      intro e; rw [escapeStep]; split <;> exact ⟨rfl, rfl⟩
    constructor
    · intro hs
      rw [hout]
      rw [(hesc _).1, (hesc _).2, stepEnemy, if_pos hs]
      exact ⟨rfl, rfl⟩
    · intro hs hsp
      rw [hout, (hesc _).1, stepEnemy, if_neg hs]
      refine ⟨rfl, ?_⟩
      have : 0 ≤ (g.enemies.getD i default).speed * dtOf g :=
        mul_nonneg hsp (dtOf_nonneg g)
      simp only
      linarith
  · intro g t e i
    exact ⟨damagePass_progress _ _ _ _ i, damagePass_progress _ _ _ _ i,
           damagePass_progress _ _ _ _ i,
           getD_map_progress _ (fun e => by
             by_cases h : inRange (towerCenter t) (enemyCell g e)
                 (if t.upgraded then t.range + 8 / 10 else t.range) = true <;>
               simp [fireCatatonic, h]) g.enemies i,
           resolveProjectiles_progress g i⟩
  · intro g t e i
    have hknock : ∀ (b : Bool) (e1 : Enemy),
        (galacticKnock b e1).path_progress = e1.path_progress ∨
        (galacticKnock b e1).path_progress =
          max 0 (e1.path_progress - kGalacticVoidBackstep) := by
      intro b e1
      cases b
      · left; rfl
      · right; rfl
    have hstrike : ∀ (g0 : GameState) (cells : List Position) (vp : Bool)
        (dmg : Int) (e1 : Enemy),
        (galacticStrike g0 cells vp dmg e1).path_progress = e1.path_progress ∨
        (galacticStrike g0 cells vp dmg e1).path_progress =
          max 0 (e1.path_progress - kGalacticVoidBackstep) := by
      intro g0 cells vp dmg e1
      rw [galacticStrike]
      split
      · exact hknock vp e1
      · left; rfl
    exact getD_map_progress_cases (galacticStrike g _ _ t.damage)
      (hstrike g _ _ t.damage) g.enemies i

/-- Witness for C2: a concrete sleeping rat does not advance during
movement and its timer decays. -/
theorem c2_amended_witness :
    ((moveEnemies gC2).enemies.getD 0 default).path_progress =
      (gC2.enemies.getD 0 default).path_progress ∧
    ((moveEnemies gC2).enemies.getD 0 default).sleep_timer =
      max 0 ((gC2.enemies.getD 0 default).sleep_timer - dtOf gC2) :=
  (c2_amended.1 gC2 0 (by decide)).1 (by decide)

/-- C2 counterexample: in `gC2` the upgraded Galacticat's void proc moves
a sleeping rat from progress 10 back to 4 within one damage phase, so
progress is neither unchanged under a positive disable timer nor
non-decreasing. -/
theorem c2_counterexample : ¬c2Claim := by
  intro h
  exact absurd ((h gC2 0 (by decide)).1 (by decide)) (by decide)

/-! ## Claim C1: death, removal, and bounty accounting -/

theorem cleanup_hp_pos (g : GameState) : ∀ e ∈ (cleanup g).enemies, 0 < e.hp := by
  intro e he
  rw [cleanup] at he
  simp only [List.mem_filter] at he
  have := he.2
  simp only [Bool.not_eq_eq_eq_not, Bool.not_true, decide_eq_false_iff_not] at this
  omega

theorem checkWave_enemies (g : GameState) :
    (checkWaveCompletion g).enemies = g.enemies ∨
    (checkWaveCompletion g).enemies = [] := by
  simp only [checkWaveCompletion]
  split
  · left; rfl
  · split
    · left; rfl
    · split
      · split
        · right
          rw [(startWave_fields _).2.2.2.2.2]
          exact (advanceMap_fields _ false).2.1
        · right
          exact (advanceMap_fields _ false).2.1
      · split
        · left
          rw [(startWave_fields _).2.2.2.2.2]
        · left; rfl

/-- C1 (amended): a hostile unit with `hp ≤ 0` is removed by the end of
the tick in which it reached that state (every unit surviving a tick has
positive hp), and a single damage application to a live unit awards its
category bounty exactly when it brings hp to 0 or below, otherwise
spawning a hit marker and leaving currency unchanged.  The claim's
exactly-once guarantee across multiple damage sources fails: a damage pass
also strikes units that are already dead and re-awards their bounty
(`c1_counterexample`). -/
theorem c1_amended :
    (∀ g : GameState, g.game_over = false → ∀ e ∈ (tick g).enemies, 0 < e.hp) ∧
    (∀ (g : GameState) (hit : Enemy → Bool) (e : Enemy) (dmg : Int) (st : ℚ),
       g.enemies = [e] → hit e = true → 0 < e.hp →
       ((e.hp - dmg ≤ 0 →
          (damagePass g hit dmg st).kibbles = g.kibbles + bounty e.type) ∧
        (0 < e.hp - dmg →
          (damagePass g hit dmg st).kibbles = g.kibbles ∧
          (damagePass g hit dmg st).hit_splats =
            g.hit_splats ++ [⟨enemyCell g e, st⟩]))) := by
  constructor
  · intro g hg e he
    rw [tick, if_neg (by simp [hg])] at he
    simp only [] at he
    have htc : ∀ x ∈ (tickCore g).enemies, 0 < x.hp := by
      intro x hx
      rw [tickCore] at hx
      rcases checkWave_enemies (updateHitSplats (cleanup (damagePhase g))) with hcw | hcw
      · rw [hcw] at hx
        exact cleanup_hp_pos (damagePhase g) x hx
      · rw [hcw] at hx
        cases hx
    split at he
    · exact htc e he
    · exact htc e he
  · intro g hit e dmg st hge hh hhp
    constructor
    · intro hd
      have hd' : e.hp ≤ dmg := by omega
      simp only [damagePass, hge]
      simp [hh, hd']
    · intro hd
      have hd1 : ¬(e.hp ≤ dmg) := by omega
      have hd2 : dmg < e.hp := by omega
      simp only [damagePass, hge]
      constructor
      · simp [hh, hd1]
      · simp [hh, hd2]

/-- Witness for C1: one 4-hp mouse hit once for 5 damage yields exactly
one mouse bounty. -/
theorem c1_amended_witness :
    (damagePass {baseState with enemies := [⟨3, 1, 4, 5, 0, EnemyType.Mouse, 0⟩]}
        (fun _ => true) 5 1).kibbles =
      ({baseState with enemies := [⟨3, 1, 4, 5, 0, EnemyType.Mouse, 0⟩]} : GameState).kibbles +
        bounty EnemyType.Mouse :=
  (c1_amended.2 {baseState with enemies := [⟨3, 1, 4, 5, 0, EnemyType.Mouse, 0⟩]}
      (fun _ => true) ⟨3, 1, 4, 5, 0, EnemyType.Mouse, 0⟩ 5 1 rfl rfl
      (by decide)).1 (by decide)

/-- C1 counterexample: in `gC1` one rat dies, whose bounty is 12, yet the
tick's currency gain is 24 — the second Thundercat's beam passes through
the rat killed moments earlier in the same tick and re-awards its
bounty. -/
theorem c1_counterexample : ¬c1Claim := by
  intro h
  exact absurd (h gC1 (by decide) (by decide) (by decide)) (by decide)

/-! ## Claim C3: batch relocation and the placement invariant -/

theorem acceptFirst_spec (own : Position) (reserved : List Position)
    (cs : List Position) :
    ((acceptFirst own reserved cs).1 = none →
      (acceptFirst own reserved cs).2 = reserved) ∧
    (∀ c, (acceptFirst own reserved cs).1 = some c →
      (acceptFirst own reserved cs).2 = c :: reserved ∧ (c = own ∨ c ∉ reserved)) := by
  induction cs with
  | nil => exact ⟨fun _ => rfl, fun c h => by simp [acceptFirst] at h⟩
  | cons c rest ih =>
    rw [acceptFirst]
    split
    · exact ih
    · rename_i hcond
      refine ⟨fun h => by simp at h, fun c' h => ?_⟩
      simp only [] at h
      cases h
      refine ⟨rfl, ?_⟩
      by_cases ho : c = own
      · exact Or.inl ho
      · exact Or.inr fun hmem => hcond ⟨hmem, ho⟩

theorem chooseKittyLanding_spec (g : GameState)
    (shuffled : List Position → List Position) (ti : Nat)
    (staticB : Position → Bool) (reserved : List Position) :
    ((chooseKittyLanding g shuffled ti staticB reserved).1 = none →
      (chooseKittyLanding g shuffled ti staticB reserved).2 = reserved) ∧
    (∀ c, (chooseKittyLanding g shuffled ti staticB reserved).1 = some c →
      (chooseKittyLanding g shuffled ti staticB reserved).2 = c :: reserved ∧
      (c = (g.towers.getD ti default).pos ∨ c ∉ reserved)) := by
  simp only [chooseKittyLanding]
  split
  · split
    · refine ⟨fun h => by simp at h, fun c h => ?_⟩
      simp only [] at h
      cases h
      exact ⟨rfl, Or.inl rfl⟩
    · exact ⟨fun _ => rfl, fun c h => by simp at h⟩
  · exact acceptFirst_spec _ reserved _

theorem planKittyJumps_mono (g : GameState) (staticB : Position → Bool) :
    ∀ (order : List Nat) (k : Nat) (reserved : List Position) (p : Position),
      p ∈ reserved → p ∈ (planKittyJumps g staticB k order reserved).2 := by
  intro order
  induction order with
  | nil => intro k reserved p hp; exact hp
  | cons i rest ih =>
    intro k reserved p hp
    rw [planKittyJumps]
    rcases hck : (chooseKittyLanding g (g.shufPos k) i staticB reserved).1 with _ | c
    · have hr : (chooseKittyLanding g (g.shufPos k) i staticB reserved).2 = reserved :=
        (chooseKittyLanding_spec g (g.shufPos k) i staticB reserved).1 hck
      exact ih (k + 1) (chooseKittyLanding g (g.shufPos k) i staticB reserved).2 p
        (by rw [hr]; exact hp)
    · have hr :=
        (chooseKittyLanding_spec g (g.shufPos k) i staticB reserved).2 c hck
      exact ih (k + 1) (chooseKittyLanding g (g.shufPos k) i staticB reserved).2 p
        (by rw [hr.1]; exact List.mem_cons_of_mem c hp)

theorem planKittyJumps_entries (g : GameState) (staticB : Position → Bool) :
    ∀ (order : List Nat) (k : Nat) (reserved : List Position) (pr : Nat × Position),
      pr ∈ (planKittyJumps g staticB k order reserved).1 →
      pr.1 ∈ order ∧
      (pr.2 = (g.towers.getD pr.1 default).pos ∨ pr.2 ∉ reserved) := by
  intro order
  induction order with
  | nil => intro k reserved pr hpr; cases hpr
  | cons i rest ih =>
    intro k reserved pr hpr
    rw [planKittyJumps] at hpr
    rcases hck : (chooseKittyLanding g (g.shufPos k) i staticB reserved).1 with _ | c
    · rw [hck] at hpr
      have hr : (chooseKittyLanding g (g.shufPos k) i staticB reserved).2 = reserved :=
        (chooseKittyLanding_spec g (g.shufPos k) i staticB reserved).1 hck
      have := ih (k + 1) (chooseKittyLanding g (g.shufPos k) i staticB reserved).2 pr hpr
      exact ⟨List.mem_cons_of_mem i this.1, hr ▸ this.2⟩
    · rw [hck] at hpr
      have hr := (chooseKittyLanding_spec g (g.shufPos k) i staticB reserved).2 c hck
      rcases List.mem_cons.mp hpr with heq | htail
      · subst heq
        exact ⟨List.mem_cons_self i rest, hr.2⟩
      · have := ih (k + 1) (chooseKittyLanding g (g.shufPos k) i staticB reserved).2 pr htail
        refine ⟨List.mem_cons_of_mem i this.1, ?_⟩
        rcases this.2 with h1 | h1
        · exact Or.inl h1
        · rw [hr.1] at h1
          exact Or.inr fun hm => h1 (List.mem_cons_of_mem c hm)

theorem planKittyJumps_pairwise (g : GameState) (staticB : Position → Bool) :
    ∀ (order : List Nat) (k : Nat) (reserved : List Position),
      order.Nodup →
      (∀ i, i ∈ order → (g.towers.getD i default).pos ∈ reserved) →
      (∀ i j, i ∈ order → j ∈ order → i ≠ j →
        (g.towers.getD i default).pos ≠ (g.towers.getD j default).pos) →
      (planKittyJumps g staticB k order reserved).1.Pairwise fun a b => a.2 ≠ b.2 := by
  intro order
  induction order with
  | nil => intro k reserved _ _ _; exact List.Pairwise.nil
  | cons i rest ih =>
    intro k reserved hnd hres hdist
    have hnd' := List.nodup_cons.mp hnd
    rw [planKittyJumps]
    rcases hck : (chooseKittyLanding g (g.shufPos k) i staticB reserved).1 with _ | c
    · have hr : (chooseKittyLanding g (g.shufPos k) i staticB reserved).2 = reserved :=
        (chooseKittyLanding_spec g (g.shufPos k) i staticB reserved).1 hck
      rw [hr]
      exact ih (k + 1) reserved hnd'.2
        (fun j hj => hres j (List.mem_cons_of_mem i hj))
        (fun a b ha hb => hdist a b (List.mem_cons_of_mem i ha) (List.mem_cons_of_mem i hb))
    · have hr := (chooseKittyLanding_spec g (g.shufPos k) i staticB reserved).2 c hck
      refine List.Pairwise.cons ?_ ?_
      · intro q hq
        have hent := planKittyJumps_entries g staticB rest (k + 1)
          (chooseKittyLanding g (g.shufPos k) i staticB reserved).2 q hq
        rcases hent.2 with hqpos | hqnew
        · -- q landed on its own seeded position
          rw [hqpos]
          rcases hr.2 with hcpos | hcnew
          · rw [hcpos]
            exact hdist i q.1 (List.mem_cons_self i rest)
              (List.mem_cons_of_mem i hent.1)
              (fun hiq => hnd'.1 (hiq ▸ hent.1))
          · intro hce
            have hc2 : c = (g.towers.getD q.1 default).pos := hce
            exact hcnew (hc2 ▸ hres q.1 (List.mem_cons_of_mem i hent.1))
        · -- q landed on a cell unreserved at its step, and c was reserved there
          intro hce
          apply hqnew
          rw [hr.1, ← hce]
          exact List.mem_cons_self c reserved
      · exact ih (k + 1) (chooseKittyLanding g (g.shufPos k) i staticB reserved).2 hnd'.2
          (fun j hj => by
            rw [hr.1]
            exact List.mem_cons_of_mem c (hres j (List.mem_cons_of_mem i hj)))
          (fun a b ha hb => hdist a b (List.mem_cons_of_mem i ha) (List.mem_cons_of_mem i hb))

theorem placementInvB_iff (path : List Position) (w : Int) (towers : List Tower) :
    placementInvB path w towers = true ↔
      ((∀ i j, i < towers.length → j < towers.length → i ≠ j →
          footprintsOverlap (towers.getD i default) (towers.getD j default) = false) ∧
       (∀ i, i < towers.length →
          occupiesPathIn path w (towers.getD i default).pos
            (towers.getD i default).size = false)) := by
  simp only [placementInvB, Bool.and_eq_true, List.all_eq_true, List.mem_range,
    Bool.or_eq_true, decide_eq_true_eq, Bool.not_eq_true']
  constructor
  · rintro ⟨h1, h2⟩
    refine ⟨fun i j hi hj hij => ?_, h2⟩
    rcases h1 i hi j hj with h | h
    · exact absurd h hij
    · exact h
  · rintro ⟨h1, h2⟩
    refine ⟨fun i hi j hj => ?_, h2⟩
    by_cases hij : i = j
    · exact Or.inl hij
    · exact Or.inr (h1 i j hi hj hij)

theorem footprintsOverlap_congr (a a' b b' : Tower) (hpa : a.pos = a'.pos)
    (hsa : a.size = a'.size) (hpb : b.pos = b'.pos) (hsb : b.size = b'.size) :
    footprintsOverlap a b = footprintsOverlap a' b' := by
  simp [footprintsOverlap, hpa, hsa, hpb, hsb]

theorem footprintsOverlap_single_left (a b : Tower) (h : a.size = 1) :
    (footprintsOverlap a b = true ↔
      (b.pos.x ≤ a.pos.x ∧ a.pos.x ≤ b.pos.x + b.size - 1 ∧
       b.pos.y ≤ a.pos.y ∧ a.pos.y ≤ b.pos.y + b.size - 1)) := by
  simp only [footprintsOverlap, h, Bool.not_eq_true', Bool.or_eq_false_iff,
    decide_eq_false_iff_not, not_lt]
  omega

theorem footprintsOverlap_single_right (a b : Tower) (h : b.size = 1) :
    (footprintsOverlap a b = true ↔
      (a.pos.x ≤ b.pos.x ∧ b.pos.x ≤ a.pos.x + a.size - 1 ∧
       a.pos.y ≤ b.pos.y ∧ b.pos.y ≤ a.pos.y + a.size - 1)) := by
  simp only [footprintsOverlap, h, Bool.not_eq_true', Bool.or_eq_false_iff,
    decide_eq_false_iff_not, not_lt]
  omega

/-- `CanKittyOccupyCell` guarantees the queried cell is off the path mask
and outside every other unit's footprint. -/
theorem canKittyOccupyCell_spec (g : GameState) (idx : Nat) (p : Position)
    (h : canKittyOccupyCell g idx p = true) :
    occupiesPath g p 1 = false ∧
    ∀ j, j < g.towers.length → j ≠ idx →
      ¬((g.towers.getD j default).pos.x ≤ p.x ∧
        p.x ≤ (g.towers.getD j default).pos.x + (g.towers.getD j default).size - 1 ∧
        (g.towers.getD j default).pos.y ≤ p.y ∧
        p.y ≤ (g.towers.getD j default).pos.y + (g.towers.getD j default).size - 1) := by
  rw [canKittyOccupyCell] at h
  split at h
  · cases h
  · split at h
    · cases h
    · rename_i hpath
      refine ⟨by simpa using hpath, ?_⟩
      rw [List.all_eq_true] at h
      intro j hj hne hrect
      have hcell := h j (List.mem_range.mpr hj)
      simp only [Bool.or_eq_true, decide_eq_true_eq, Bool.not_eq_true',
        decide_eq_false_iff_not, ge_iff_le] at hcell
      rcases hcell with hji | hmiss
      · exact hne hji
      · exact hmiss ⟨hrect.1, hrect.2.1, hrect.2.2.1, hrect.2.2.2⟩

/-- Replacing the unit at `idx` by one of the same size that either kept
its cell or passed the `CanKittyOccupyCell` checks preserves the placement
invariant. -/
theorem placementInvB_set (path : List Position) (w : Int) (towers : List Tower)
    (idx : Nat) (t' : Tower)
    (hinv : placementInvB path w towers = true)
    (hsz : t'.size = (towers.getD idx default).size)
    (hmove : t'.pos = (towers.getD idx default).pos ∨
      (t'.size = 1 ∧ occupiesPathIn path w t'.pos 1 = false ∧
       ∀ j, j < towers.length → j ≠ idx →
         ¬((towers.getD j default).pos.x ≤ t'.pos.x ∧
           t'.pos.x ≤ (towers.getD j default).pos.x + (towers.getD j default).size - 1 ∧
           (towers.getD j default).pos.y ≤ t'.pos.y ∧
           t'.pos.y ≤ (towers.getD j default).pos.y + (towers.getD j default).size - 1))) :
    placementInvB path w (towers.set idx t') = true := by
  rcases Nat.lt_or_ge idx towers.length with hlt | hge
  · rw [placementInvB_iff] at hinv ⊢
    obtain ⟨hov, hpa⟩ := hinv
    have hgeti : (towers.set idx t').getD idx default = t' :=
      getD_set_self towers idx t' default hlt
    have hgets : ∀ m, m ≠ idx →
        (towers.set idx t').getD m default = towers.getD m default :=
      fun m hm => getD_set_ne towers idx m t' default (Ne.symm hm)
    constructor
    · intro i j hi hj hij
      rw [List.length_set] at hi hj
      by_cases hi' : i = idx <;> by_cases hj' : j = idx
      · exact absurd (hi'.trans hj'.symm) hij
      · rw [hi', hgeti, hgets j hj']
        rcases hmove with hpos | ⟨h1, _, hrect⟩
        · rw [footprintsOverlap_congr t' (towers.getD idx default)
            (towers.getD j default) (towers.getD j default) hpos hsz rfl rfl]
          exact hov idx j hlt hj (Ne.symm hj')
        · cases hfo : footprintsOverlap t' (towers.getD j default)
          · rfl
          · exact absurd ((footprintsOverlap_single_left t' (towers.getD j default) h1).mp hfo)
              (hrect j hj hj')
      · rw [hj', hgeti, hgets i hi']
        rcases hmove with hpos | ⟨h1, _, hrect⟩
        · rw [footprintsOverlap_congr (towers.getD i default) (towers.getD i default)
            t' (towers.getD idx default) rfl rfl hpos hsz]
          exact hov i idx hi hlt hi'
        · cases hfo : footprintsOverlap (towers.getD i default) t'
          · rfl
          · exact absurd ((footprintsOverlap_single_right (towers.getD i default) t' h1).mp hfo)
              (hrect i hi hi')
      · rw [hgets i hi', hgets j hj']
        exact hov i j hi hj hij
    · intro i hi
      rw [List.length_set] at hi
      by_cases hi' : i = idx
      · rw [hi', hgeti]
        rcases hmove with hpos | ⟨h1, hpath, _⟩
        · rw [hpos, hsz]
          exact hpa idx hlt
        · rw [h1]
          exact hpath
      · rw [hgets i hi']
        exact hpa i hi
  · rw [set_beyond towers idx t' hge]
    exact hinv

/-- The destination resolved by the attack loop is either the unit's own
cell or one revalidated by `CanKittyOccupyCell`. -/
theorem kittyDest_spec (planned : List (Nat × Position)) (g : GameState) (idx : Nat) :
    kittyDest planned g idx = (g.towers.getD idx default).pos ∨
    canKittyOccupyCell g idx (kittyDest planned g idx) = true := by
  rw [kittyDest]
  split
  · exact Or.inl rfl
  · rename_i hcond
    rcases not_and_or.mp hcond with h | h
    · exact Or.inl (not_ne_iff.mp h)
    · exact Or.inr (not_not.mp h)

/-- `applyKittyOne` only repositions the processed unit: list length and
every unit's size and type are unchanged. -/
theorem applyKittyOne_pres (planned : List (Nat × Position)) (g : GameState)
    (idx : Nat) :
    (applyKittyOne planned g idx).towers.length = g.towers.length ∧
    ∀ j : Nat,
      ((applyKittyOne planned g idx).towers.getD j default).size =
        (g.towers.getD j default).size ∧
      ((applyKittyOne planned g idx).towers.getD j default).type =
        (g.towers.getD j default).type := by
  have key : ∀ t'' : Tower,
      t''.size = (g.towers.getD idx default).size →
      t''.type = (g.towers.getD idx default).type →
      ((g.towers.set idx t'').length = g.towers.length ∧
       ∀ j : Nat,
         ((g.towers.set idx t'').getD j default).size = (g.towers.getD j default).size ∧
         ((g.towers.set idx t'').getD j default).type = (g.towers.getD j default).type) := by
    intro t'' hs ht
    refine ⟨List.length_set g.towers idx t'', fun j => ?_⟩
    by_cases hj : j = idx
    · rw [hj]
      rcases Nat.lt_or_ge idx g.towers.length with hlt | hge
      · rw [getD_set_self g.towers idx t'' default hlt]
        exact ⟨hs, ht⟩
      · rw [set_beyond g.towers idx t'' hge]
        exact ⟨rfl, rfl⟩
    · rw [getD_set_ne g.towers idx j t'' default (Ne.symm hj)]
      exact ⟨rfl, rfl⟩
  have key2 : ∀ (ta t'' : Tower),
      t''.size = (g.towers.getD idx default).size →
      t''.type = (g.towers.getD idx default).type →
      (((g.towers.set idx ta).set idx t'').length = g.towers.length ∧
       ∀ j : Nat,
         (((g.towers.set idx ta).set idx t'').getD j default).size =
           (g.towers.getD j default).size ∧
         (((g.towers.set idx ta).set idx t'').getD j default).type =
           (g.towers.getD j default).type) := by
    intro ta t'' hs ht
    rw [List.set_set]
    exact key t'' hs ht
  rw [applyKittyOne]
  split
  · exact key2 _ _ rfl rfl
  · exact key2 _ _ rfl rfl

/-- `applyKittyOne` preserves the placement invariant, provided the
processed unit occupies a single cell (Kitty Cats do). -/
theorem applyKittyOne_inv (planned : List (Nat × Position)) (g : GameState)
    (idx : Nat) (hinv : placementInv g = true)
    (hsz : idx < g.towers.length → (g.towers.getD idx default).size = 1) :
    placementInv (applyKittyOne planned g idx) = true := by
  have hd := kittyDest_spec planned g idx
  have hkey : ∀ t' : Tower, t'.pos = kittyDest planned g idx →
      t'.size = (g.towers.getD idx default).size →
      placementInvB g.path g.path_width (g.towers.set idx t') = true := by
    intro t' hp hs
    rcases hd with hpos | hcan
    · exact placementInvB_set g.path g.path_width g.towers idx t' hinv hs
        (Or.inl (hp.trans hpos))
    · rcases Nat.lt_or_ge idx g.towers.length with hlt | hge
      · have hspec := canKittyOccupyCell_spec g idx _ hcan
        refine placementInvB_set g.path g.path_width g.towers idx t' hinv hs
          (Or.inr ⟨by rw [hs]; exact hsz hlt, ?_, ?_⟩)
        · rw [hp]
          exact hspec.1
        · intro j hj hne
          rw [hp]
          exact hspec.2 j hj hne
      · rw [set_beyond g.towers idx t' hge]
        exact hinv
  have hkey2 : ∀ (ta t' : Tower), t'.pos = kittyDest planned g idx →
      t'.size = (g.towers.getD idx default).size →
      placementInvB g.path g.path_width ((g.towers.set idx ta).set idx t') = true := by
    intro ta t' hp hs
    rw [List.set_set]
    exact hkey t' hp hs
  have hrevert : ∀ ta : Tower,
      placementInvB g.path g.path_width
        ((g.towers.set idx ta).set idx (g.towers.getD idx default)) = true := by
    intro ta
    rw [List.set_set, set_getD_self]
    exact hinv
  rw [applyKittyOne]
  split
  · exact hrevert _
  · exact hkey2 _ _ rfl rfl

/-- The attack loop of `HandleKittyAttacks` preserves the placement
invariant when every Kitty Cat occupies a single cell. -/
theorem kittyFold_inv (planned : List (Nat × Position)) :
    ∀ (ready : List Nat) (g : GameState),
      placementInv g = true →
      (∀ j, j < g.towers.length →
        (g.towers.getD j default).type = TowerType.Kitty →
        (g.towers.getD j default).size = 1) →
      (∀ i, i ∈ ready → i < g.towers.length →
        (g.towers.getD i default).type = TowerType.Kitty) →
      placementInv (ready.foldl (applyKittyOne planned) g) = true := by
  intro ready
  induction ready with
  | nil => intro g hinv _ _; exact hinv
  | cons i rest ih =>
    intro g hinv hk hready
    rw [List.foldl_cons]
    have hsz : i < g.towers.length → (g.towers.getD i default).size = 1 :=
      fun hlt => hk i hlt (hready i (List.mem_cons_self i rest) hlt)
    have hpres := applyKittyOne_pres planned g i
    apply ih (applyKittyOne planned g i)
    · exact applyKittyOne_inv planned g i hinv hsz
    · intro j hj hty
      rw [(hpres.2 j).1]
      exact hk j (hpres.1 ▸ hj) ((hpres.2 j).2 ▸ hty)
    · intro m hm hlt
      rw [(hpres.2 m).2]
      exact hready m (List.mem_cons_of_mem i hm) (hpres.1 ▸ hlt)

/-- `HandleKittyAttacks` preserves the placement invariant when every
Kitty Cat on the board is a 1×1 unit (as all are in the unit catalog). -/
theorem handleKittyAttacks_inv (g : GameState)
    (hinv : placementInv g = true)
    (hk : ∀ t' ∈ g.towers, t'.type = TowerType.Kitty → t'.size = 1) :
    placementInv (handleKittyAttacks g) = true := by
  rw [handleKittyAttacks]
  split
  · exact hinv
  · apply kittyFold_inv
    · exact hinv
    · show ∀ j, j < g.towers.length →
        (g.towers.getD j default).type = TowerType.Kitty →
        (g.towers.getD j default).size = 1
      intro j hj hty
      have hmem : g.towers.getD j default ∈ g.towers := by
        rw [List.getD_eq_getElem g.towers default hj]
        exact List.getElem_mem hj
      exact hk _ hmem hty
    · intro m hm hlt
      have hp := (List.mem_filter.mp hm).2
      simp only [Bool.and_eq_true, decide_eq_true_eq] at hp
      exact hp.1.1

/-- C3 (amended): the batch relocation of `HandleKittyAttacks` never
assigns two jumping units the same destination cell — given the loop's
actual entry conditions: a duplicate-free jumper order whose seed
positions are all reserved and pairwise distinct — and the
relocation-and-attack phase itself preserves the pairwise non-overlap /
off-path invariant whenever every Kitty Cat on the board is a 1×1 unit
(as all are in the unit catalog).  The claim's further assertion that the
invariant holds in *every* reachable state fails: `CancelHold` can
restore a picked-up unit onto a cell occupied in the meantime (see
`c3_counterexample`). -/
theorem c3_amended :
    (∀ (g : GameState) (staticB : Position → Bool) (k : Nat)
       (order : List Nat) (reserved : List Position),
       order.Nodup →
       (∀ i, i ∈ order → (g.towers.getD i default).pos ∈ reserved) →
       (∀ i j, i ∈ order → j ∈ order → i ≠ j →
          (g.towers.getD i default).pos ≠ (g.towers.getD j default).pos) →
       (planKittyJumps g staticB k order reserved).1.Pairwise fun a b => a.2 ≠ b.2) ∧
    (∀ g : GameState, placementInv g = true →
       (∀ t' ∈ g.towers, t'.type = TowerType.Kitty → t'.size = 1) →
       placementInv (handleKittyAttacks g) = true) :=
  ⟨fun g staticB k order reserved h1 h2 h3 =>
      planKittyJumps_pairwise g staticB order k reserved h1 h2 h3,
   fun g h1 h2 => handleKittyAttacks_inv g h1 h2⟩

/-- Witness for C3: a concrete one-jumper plan is duplicate-free, and the
attack phase on `gC3` keeps the invariant. -/
theorem c3_amended_witness :
    (planKittyJumps gC3 (fun _ => false) 0 [0] [⟨0, 0⟩]).1.Pairwise
      (fun a b => a.2 ≠ b.2) ∧
    placementInv (handleKittyAttacks gC3) = true :=
  ⟨c3_amended.1 gC3 (fun _ => false) 0 [0] [⟨0, 0⟩] (by decide) (by decide)
      (fun i j hi hj hne => by
        simp only [List.mem_singleton] at hi hj
        exact absurd (hi.trans hj.symm) hne),
   c3_amended.2 gC3 (by decide) (by decide)⟩

/-- C3 counterexample: the invariant does not hold in every reachable
state — `CancelHold` on `gC3` pushes the held unit back onto the cell
where a unit already stands, so `cancelHold` does not preserve it. -/
theorem c3_counterexample : ¬c3Claim := by
  intro h
  exact absurd (h.2.2.2.2.2.2.2.1 gC3 (by decide)) (by decide)

end CatCat
